import Mathlib

/-!
# Verification development for `src/core/TiledRenderer.cpp` (GLSL-PathTracer)

A shallow embedding of the progressive tile scheduler of `GLSLPT::TiledRenderer`.

* The C++ object is a record `TiledRenderer`; the `Scene` it points to is kept as the
  field `scene` (the pointee), so that `scene->dirty = false` is a record update.
* `int` fields are `Int` (the counters are assumed to stay inside the range of `int`;
  signed overflow is undefined in C++ and is not modelled).  The C++ operator `%` is
  `Int.tmod` (truncating); a zero divisor is undefined in C++ and is given Lean's value.
* Calls into OpenGL / Open Image Denoise are recorded as a list of `Effect`s, in program
  order.  `Renderer::Update` and `Renderer::Init` of the base class are outside the file:
  the first is recorded as an effect, the second is `baseInit`.  The contents of the GPU images that matter for scheduling are abstracted:
  `accumTexture` is the list of tile regions merged since the last clear, and each half of
  `tileOutputTexture` holds the value of `accumTexture` it was last derived from.
-/

namespace GLSLPT

/-! ## Data model -/

/-- Integer pair, the `iVec2` of the source (`tile`, `numTiles`, `renderSize`, `windowSize`). -/
structure IVec2 where
  x : Int
  y : Int
deriving DecidableEq, Repr

/-- The fields of `scene->renderOptions` that `TiledRenderer.cpp` reads for scheduling. -/
structure RenderOptions where
  tileWidth : Int
  tileHeight : Int
  maxDepth : Int
  maxSpp : Int
  enableDenoiser : Bool
  denoiserFrameCnt : Int
deriving DecidableEq, Repr

/-- The pointee of `scene`: options, the `dirty` signal and `instancesModified`. -/
structure Scene where
  renderOptions : RenderOptions
  dirty : Bool
  instancesModified : Bool
deriving DecidableEq, Repr

/-- The four shader programs owned by the renderer. -/
inductive Shader where
  | pathTrace
  | pathTraceLowRes
  | output
  | tonemap
deriving DecidableEq, Repr

/-- Externally visible actions of the renderer, one constructor per call group of the source. -/
inductive Effect where
  /-- The diagnostic `printf("Tiled Renderer is not initialized")`. -/
  | diagnostic
  /-- The call `Renderer::Update(secondsElapsed)` of the base class. -/
  | baseUpdate
  /-- Read-back `glBindTexture(tileOutputTexture[half]); glGetTexImage(.., denoiserInputFramePtr)`. -/
  | readback (half : Int)
  /-- The denoiser run `oidn::newDevice() .. filter.execute()`. -/
  | denoiserExecute
  /-- The log line `std::cout << "Error: " << errorMessage`. -/
  | errorLog
  /-- Upload `glBindTexture(denoisedTexture); glTexImage2D(.., frameOutputPtr)`. -/
  | denoisedUpload
  /-- Clear `glBindFramebuffer(accumFBO); glClear(GL_COLOR_BUFFER_BIT)`. -/
  | accumClear
  /-- Uniform upload `s->Use(); glUniform..; s->StopUsing()`; for the path-trace shader the record keeps the
  tile of `tileOffset` and `frameNum`, for the tonemap shader the `sampleCounter` of
  `invSampleCounter`, for the low-res shader its `maxDepth`. -/
  | useShader (s : Shader) (tile : IVec2) (n : Int)
  /-- Draw `quad->Draw(pathTraceShaderLowRes)` into `pathTraceFBOLowRes`. -/
  | previewPass
  /-- Draw `quad->Draw(pathTraceShader)` into `pathTraceFBO`. -/
  | tilePass
  /-- Draw `quad->Draw(outputShader)` into `accumFBO`, viewport at `tile`. -/
  | accumPass (tile : IVec2)
  /-- Draw `quad->Draw(tonemapShader)` into `tileOutputTexture[half]`. -/
  | tonemapPass (half : Int)
  /-- In `Present`: `quad->Draw(tonemapShader)` from `pathTraceTextureLowRes`. -/
  | presentPreview
  /-- In `Present`: `quad->Draw(outputShader)` from `denoisedTexture`. -/
  | presentDenoised
  /-- In `Present`: `quad->Draw(outputShader)` from `tileOutputTexture[half]`. -/
  | presentHalf (half : Int)
deriving DecidableEq, Repr

/-- The state of a `TiledRenderer` object together with the scene it points to. -/
structure TiledRenderer where
  scene : Scene
  initialized : Bool
  renderSize : IVec2
  windowSize : IVec2
  tileWidth : Int
  tileHeight : Int
  tile : IVec2
  numTiles : IVec2
  currentBuffer : Int
  sampleCounter : Int
  frameCounter : Int
  denoised : Bool
  /-- Abstract contents of `accumTexture`: tile regions merged since the last clear. -/
  accumTexture : List IVec2
  /-- Abstract contents of `tileOutputTexture[0]`: the accumulation it was derived from. -/
  tileOutputTexture0 : List IVec2
  /-- Abstract contents of `tileOutputTexture[1]`. -/
  tileOutputTexture1 : List IVec2
deriving DecidableEq, Repr

/-- The image a presentation or read-back binds. -/
inductive Image where
  | lowRes
  | denoisedImage
  | outputHalf (half : Int)
deriving DecidableEq, Repr

/-! ## Operations -/

/-- Ceiling of `a / b` as computed by `ceil((float)a / b)` for `b > 0` (the float quotient is
taken to be exact). -/
def ceilDiv (a b : Int) : Int := -((-a) / b)

/-- The constructor `TiledRenderer::TiledRenderer`.  `renderSize`, `windowSize` belong to the
base class and `frameCounter` is not given a value by the constructor: they are parameters. -/
def construct (scene : Scene) (renderSize windowSize : IVec2) (frameCounter : Int) :
    TiledRenderer :=
  { scene := scene
    initialized := false
    renderSize := renderSize
    windowSize := windowSize
    tileWidth := scene.renderOptions.tileWidth
    tileHeight := scene.renderOptions.tileHeight
    tile := ⟨0, 0⟩
    numTiles := ⟨0, 0⟩
    currentBuffer := 0
    sampleCounter := 0
    frameCounter := frameCounter
    denoised := false
    accumTexture := []
    tileOutputTexture0 := []
    tileOutputTexture1 := [] }

/-- Modelled from the spec: `Renderer::Init` of the base class is not in the source file; it
completes the set-up of the shared resources and marks the renderer initialized. -/
def baseInit (r : TiledRenderer) : TiledRenderer :=
  { r with initialized := true }

/-- The method `TiledRenderer::Init` (scheduler part, lines 64-84; the rest creates GPU
resources). -/
def Init (r : TiledRenderer) : TiledRenderer :=
  if r.initialized then r
  else
    let r := baseInit r
    let numTiles : IVec2 :=
      ⟨ceilDiv r.renderSize.x r.tileWidth, ceilDiv r.renderSize.y r.tileHeight⟩
    { r with
      sampleCounter := 1
      currentBuffer := 0
      frameCounter := 1
      numTiles := numTiles
      tile := ⟨-1, numTiles.y - 1⟩ }

/-- The guard `!scene->dirty && maxSpp != -1 && sampleCounter >= maxSpp` of `Update`/`Render`. -/
def converged (r : TiledRenderer) : Bool :=
  !r.scene.dirty && (r.scene.renderOptions.maxSpp != -1
    && decide (r.sampleCounter ≥ r.scene.renderOptions.maxSpp))

/-- The condition under which `Update` calls the denoiser (lines 452-454). -/
def denoiseGate (r : TiledRenderer) : Bool :=
  (r.scene.renderOptions.enableDenoiser && decide (r.sampleCounter > 1))
    && (!r.denoised || decide (Int.tmod r.frameCounter
          (r.scene.renderOptions.denoiserFrameCnt * (r.numTiles.x * r.numTiles.y)) = 0))

/-- Lines 451-487 of `Update`: the denoise block.  `err` is the outcome of the external
denoiser (`device.getError(..) != oidn::Error::None`).  The step follows the source for
every nonzero divisor of the cadence test; with a zero divisor the source is undefined,
and theorems about the result of `Update` from arbitrary states assume it nonzero. -/
def denoiseStep (err : Bool) (r : TiledRenderer) : TiledRenderer × List Effect :=
  if r.scene.renderOptions.enableDenoiser && decide (r.sampleCounter > 1) then
    if !r.denoised || decide (Int.tmod r.frameCounter
          (r.scene.renderOptions.denoiserFrameCnt * (r.numTiles.x * r.numTiles.y)) = 0) then
      ({ r with denoised := true },
        [Effect.readback (1 - r.currentBuffer), Effect.denoiserExecute]
          ++ (if err then [Effect.errorLog] else [])
          ++ [Effect.denoisedUpload])
    else (r, [])
  else ({ r with denoised := false }, [])

/-- Lines 489-518 of `Update`: hard reset when the scene is dirty, raster advance otherwise. -/
def advanceStep (r : TiledRenderer) : TiledRenderer × List Effect :=
  if r.scene.dirty then
    ({ r with
        tile := ⟨-1, r.numTiles.y - 1⟩
        sampleCounter := 1
        denoised := false
        frameCounter := 1
        accumTexture := [] },
      [Effect.accumClear])
  else
    let r := { r with frameCounter := r.frameCounter + 1, tile := ⟨r.tile.x + 1, r.tile.y⟩ }
    if r.tile.x ≥ r.numTiles.x then
      let r := { r with tile := ⟨0, r.tile.y - 1⟩ }
      if r.tile.y < 0 then
        ({ r with
            tile := ⟨0, r.numTiles.y - 1⟩
            sampleCounter := r.sampleCounter + 1
            currentBuffer := 1 - r.currentBuffer }, [])
      else (r, [])
    else (r, [])

/-- Lines 520-563 of `Update`: the uniforms of the three shader programs. -/
def uniformStep (r : TiledRenderer) : List Effect :=
  [ Effect.useShader Shader.pathTrace r.tile r.frameCounter,
    Effect.useShader Shader.pathTraceLowRes r.tile
      (if r.scene.dirty then 2 else r.scene.renderOptions.maxDepth),
    Effect.useShader Shader.tonemap r.tile r.sampleCounter ]

/-- The method `TiledRenderer::Update` (lines 444-563). -/
def Update (err : Bool) (r : TiledRenderer) : TiledRenderer × List Effect :=
  if converged r then (r, [])
  else
    let d := denoiseStep err r
    let a := advanceStep d.1
    (a.1, [Effect.baseUpdate] ++ d.2 ++ a.2 ++ uniformStep a.1)

/-- Write `img` to `tileOutputTexture[i]`.  The index is `currentBuffer`, which is 0 or 1 in
every state reached from the constructor (it is only ever replaced by `1 - currentBuffer`). -/
def setOutputTexture (r : TiledRenderer) (i : Int) (img : List IVec2) : TiledRenderer :=
  if i = 0 then { r with tileOutputTexture0 := img } else { r with tileOutputTexture1 := img }

/-- Read `tileOutputTexture[i]`. -/
def outputTexture (r : TiledRenderer) (i : Int) : List IVec2 :=
  if i = 0 then r.tileOutputTexture0 else r.tileOutputTexture1

/-- The method `TiledRenderer::Render` (lines 344-390). -/
def Render (r : TiledRenderer) : TiledRenderer × List Effect :=
  if !r.initialized then (r, [Effect.diagnostic])
  else if converged r then (r, [])
  else if r.scene.dirty then
    ({ r with scene := { r.scene with instancesModified := false, dirty := false } },
      [Effect.previewPass])
  else
    let accum := r.accumTexture ++ [r.tile]
    (setOutputTexture { r with accumTexture := accum } r.currentBuffer accum,
      [Effect.tilePass, Effect.accumPass r.tile, Effect.tonemapPass r.currentBuffer])

/-- The image `TiledRenderer::Present` binds, `none` when it returns without drawing. -/
def presentSelection (r : TiledRenderer) : Option Image :=
  if !r.initialized then none
  else if r.scene.dirty || r.sampleCounter == 1 then some Image.lowRes
  else if r.scene.renderOptions.enableDenoiser && r.denoised then some Image.denoisedImage
  else some (Image.outputHalf (1 - r.currentBuffer))

/-- The method `TiledRenderer::Present` (a `const` method: it only draws). -/
def Present (r : TiledRenderer) : List Effect :=
  match presentSelection r with
  | none => []
  | some Image.lowRes => [Effect.presentPreview]
  | some Image.denoisedImage => [Effect.presentDenoised]
  | some (Image.outputHalf i) => [Effect.presentHalf i]

/-- The method `TiledRenderer::GetProgress`, the float quotient taken over the rationals. -/
def GetProgress (r : TiledRenderer) : ℚ :=
  if r.scene.renderOptions.maxSpp ≤ 0 then 0
  else (r.sampleCounter : ℚ) * 100 / (r.scene.renderOptions.maxSpp : ℚ)

/-- The image `TiledRenderer::GetOutputBuffer` reads back. -/
def GetOutputBuffer (r : TiledRenderer) : Image :=
  if r.scene.renderOptions.enableDenoiser && r.denoised then Image.denoisedImage
  else Image.outputHalf (1 - r.currentBuffer)

/-- The method `TiledRenderer::GetSampleCount`. -/
def GetSampleCount (r : TiledRenderer) : Int := r.sampleCounter

/-! ## Ticks and runs -/

/-- The external event "camera or instances changed": `scene->dirty = true`. -/
def markDirty (r : TiledRenderer) : TiledRenderer :=
  { r with scene := { r.scene with dirty := true } }

/-- One tick: `Update` followed by `Render`; the result carries the effects of both. -/
def tick (err : Bool) (r : TiledRenderer) : TiledRenderer × List Effect :=
  let u := Update err r
  let v := Render u.1
  (v.1, u.2 ++ v.2)

/-- A tick preceded by the external dirty signal `d`. -/
def step (err d : Bool) (r : TiledRenderer) : TiledRenderer × List Effect :=
  tick err (if d then markDirty r else r)

/-- The state after the ticks driven by the list of dirty signals `ds`. -/
def runSignals (err : Bool) : List Bool → TiledRenderer → TiledRenderer
  | [], r => r
  | d :: ds, r => runSignals err ds (step err d r).1

/-- The state after `n` ticks without any external dirty signal. -/
def run (err : Bool) : Nat → TiledRenderer → TiledRenderer
  | 0, r => r
  | n + 1, r => run err n (tick err r).1

/-- The effects of `n` ticks without external dirty signal, in order. -/
def runEffects (err : Bool) : Nat → TiledRenderer → List Effect
  | 0, _ => []
  | n + 1, r => (tick err r).2 ++ runEffects err n (tick err r).1

/-- Does the effect draw (`quad->Draw`) into a framebuffer or the screen? -/
def Effect.isRenderPass : Effect → Bool
  | Effect.previewPass => true
  | Effect.tilePass => true
  | Effect.accumPass _ => true
  | Effect.tonemapPass _ => true
  | Effect.presentPreview => true
  | Effect.presentDenoised => true
  | Effect.presentHalf _ => true
  | _ => false

/-- Does the effect dereference a backend resource (shader, texture or framebuffer)? -/
def Effect.usesBackend : Effect → Bool
  | Effect.diagnostic => false
  | Effect.baseUpdate => false
  | Effect.denoiserExecute => false
  | Effect.errorLog => false
  | _ => true

/-- The scheduler-owned fields: cursor, counters, buffer index and denoise flag. -/
def schedulerState (r : TiledRenderer) : IVec2 × Int × Int × Int × Bool :=
  (r.tile, r.sampleCounter, r.frameCounter, r.currentBuffer, r.denoised)

/-! ## Concrete scenes used to exercise the model -/

/-- Options with 250x250 tiles, the given sample bound and denoiser switch, cadence 1. -/
def scenarioOptions (maxSpp : Int) (denoiser : Bool) : RenderOptions :=
  { tileWidth := 250, tileHeight := 250, maxDepth := 2, maxSpp := maxSpp,
    enableDenoiser := denoiser, denoiserFrameCnt := 1 }

/-- A scene that is not dirty. -/
def scenarioScene (maxSpp : Int) (denoiser : Bool) : Scene :=
  { renderOptions := scenarioOptions maxSpp denoiser, dirty := false, instancesModified := false }

/-- A freshly constructed renderer for a square render target of side `size`. -/
def scenarioFresh (size maxSpp : Int) (denoiser : Bool) : TiledRenderer :=
  construct (scenarioScene maxSpp denoiser) ⟨size, size⟩ ⟨size, size⟩ 0

/-- The renderer of `scenarioFresh` after `Init`. -/
def scenarioInit (size maxSpp : Int) (denoiser : Bool) : TiledRenderer :=
  Init (scenarioFresh size maxSpp denoiser)

/-! ## The tile grid and the log of a run -/

/-- One row of the tile grid: the cells `(0, y), (1, y), .., (nX-1, y)`. -/
def gridRow (nX y : Nat) : List IVec2 :=
  (List.range nX).map (fun x : Nat => (⟨(x : Int), (y : Int)⟩ : IVec2))

/-- The cells of an `nX` by `nY` grid in raster order: rows `y = nY-1` down to `0`, and
`x = 0` up to `nX-1` within each row. -/
def gridCells (nX : Nat) : Nat → List IVec2
  | 0 => []
  | nY + 1 => gridRow nX nY ++ gridCells nX nY

/-- The tile positions of the accumulation passes in a list of effects, in order. -/
def mergedTiles : List Effect → List IVec2
  | [] => []
  | Effect.accumPass t :: es => t :: mergedTiles es
  | _ :: es => mergedTiles es

/-- The log of `n` clean ticks: for every tile `Render` merges, the value of
`sampleCounter` at that `Render` and the tile position it used. -/
def passLog (err : Bool) : Nat → TiledRenderer → List (Int × IVec2)
  | 0, _ => []
  | n + 1, r =>
    (mergedTiles (tick err r).2).map (fun t => ((tick err r).1.sampleCounter, t))
      ++ passLog err n (tick err r).1

/-- The tiles of a log that were rendered while `sampleCounter` had the value `c`. -/
def tilesAtSample (c : Int) (log : List (Int × IVec2)) : List IVec2 :=
  (log.filter (fun p => p.1 == c)).map Prod.snd

/-- Position of the cursor in raster order, counted from the first tile of the pass
(`-1` for the sentinel `(-1, numTiles.y - 1)`). -/
def cursorIndex (r : TiledRenderer) : Int :=
  (r.numTiles.y - 1 - r.tile.y) * r.numTiles.x + r.tile.x

/-- The cursor lies on the grid or on the column `-1` to the left of it. -/
def CursorOk (r : TiledRenderer) : Prop :=
  -1 ≤ r.tile.x ∧ r.tile.x < r.numTiles.x ∧ 0 ≤ r.tile.y ∧ r.tile.y < r.numTiles.y

/-- The log of `q` complete sample passes numbered `c`, `c+1`, .. over the cell list `g`. -/
def passBlocks (c : Int) (g : List IVec2) : Nat → List (Int × IVec2)
  | 0 => []
  | q + 1 => passBlocks c g q ++ g.map (fun t => (c + (q : Int), t))

/-- The accumulation after `q` complete sample passes over the cell list `g`. -/
def fullPasses (g : List IVec2) : Nat → List IVec2
  | 0 => []
  | q + 1 => fullPasses g q ++ g

/-- Is the external denoiser called in the tick taken after `k` clean ticks of a run
(tick number `k + 1`)? -/
def denoiserCalledAfter (err : Bool) (r : TiledRenderer) (k : Nat) : Bool :=
  decide (Effect.denoiserExecute ∈ (tick err (run err k r)).2)

/-- Is tick number `k + 1` of a run a re-invocation of the denoiser, that is a call made
while a denoised image already exists (`denoised` is set)? -/
def denoiserRefreshAfter (err : Bool) (r : TiledRenderer) (k : Nat) : Bool :=
  denoiserCalledAfter err r k && (run err k r).denoised

/-- The invariant behind the double buffer, on an `nX` by `nY` grid.  With
`sampleCounter = 1 + q`, the accumulation holds `q` complete passes followed by the first
`m` tiles of the current pass, where `m` is the cursor position (or `m = 0` in the state in
which `Update` has just reached the sample bound and `Render` was skipped); once a pass is
complete (`q > 0`) the half `1 - currentBuffer` of the presentation store was derived from
exactly those `q` complete passes; and the half `currentBuffer` follows the accumulation as
soon as a tile of the current pass is merged. -/
def DoubleBufferInv (nX nY : Nat) (r : TiledRenderer) : Prop :=
  r.initialized = true ∧ r.numTiles = ⟨(nX : Int), (nY : Int)⟩
    ∧ (r.currentBuffer = 0 ∨ r.currentBuffer = 1) ∧ CursorOk r
    ∧ ∃ q m : Nat, r.sampleCounter = 1 + (q : Int)
      ∧ r.accumTexture = fullPasses (gridCells nX nY) q ++ (gridCells nX nY).take m
      ∧ ((m : Int) = cursorIndex r + 1
          ∨ (m = 0 ∧ r.scene.renderOptions.maxSpp ≠ -1
              ∧ r.scene.renderOptions.maxSpp ≤ r.sampleCounter))
      ∧ (0 < q → outputTexture r (1 - r.currentBuffer) = fullPasses (gridCells nX nY) q)
      ∧ (0 < m → outputTexture r r.currentBuffer = r.accumTexture)

/-- The state reached from a freshly constructed renderer by `Init` followed by the ticks
driven by the dirty signals `ds`. -/
def stateAfter (err : Bool) (scene : Scene) (renderSize windowSize : IVec2) (fc : Int)
    (ds : List Bool) : TiledRenderer :=
  runSignals err ds (Init (construct scene renderSize windowSize fc))

end GLSLPT

namespace GLSLPT

/-! ## Basic facts about one call -/

theorem Update_of_converged (err : Bool) (r : TiledRenderer) (h : converged r = true) :
    Update err r = (r, []) := by
  simp [Update, h]

theorem Render_of_converged (r : TiledRenderer) (hi : r.initialized = true)
    (h : converged r = true) : Render r = (r, []) := by
  simp [Render, hi, h]

theorem tick_of_converged (err : Bool) (r : TiledRenderer) (h : converged r = true) :
    (tick err r).1 = r ∧
      ∀ e ∈ (tick err r).2, e = Effect.diagnostic := by
  by_cases hi : r.initialized = true
  · simp [tick, Update_of_converged err r h, Render_of_converged r hi h]
  · simp [tick, Update_of_converged err r h, Render, hi]

theorem converged_iff (r : TiledRenderer) :
    converged r = true ↔ r.scene.dirty = false ∧ r.scene.renderOptions.maxSpp ≠ -1
      ∧ r.scene.renderOptions.maxSpp ≤ r.sampleCounter := by
  simp [converged]

theorem denoiseStep_frame (err : Bool) (r : TiledRenderer) :
    (denoiseStep err r).1 = { r with denoised := (denoiseStep err r).1.denoised } := by
  unfold denoiseStep
  split_ifs <;> rfl

theorem denoiseStep_effects (err : Bool) (r : TiledRenderer) :
    Effect.denoiserExecute ∈ (denoiseStep err r).2 ↔ denoiseGate r = true := by
  unfold denoiseStep denoiseGate
  split_ifs with h1 h2 <;> simp_all


/-! ## C3: hard reset on invalidation -/

theorem Update_of_dirty (err : Bool) (r : TiledRenderer) (h : r.scene.dirty = true) :
    (Update err r).1 =
      { r with
        tile := ⟨-1, r.numTiles.y - 1⟩
        sampleCounter := 1
        denoised := false
        frameCounter := 1
        accumTexture := [] }
      ∧ Effect.accumClear ∈ (Update err r).2 := by
  have hc : converged r = false := by simp [converged, h]
  have hd : (denoiseStep err r).1.scene.dirty = true := by
    rw [denoiseStep_frame]; exact h
  constructor
  · simp only [Update, hc, advanceStep, hd]
    rw [denoiseStep_frame]
    simp
  · simp [Update, hc, advanceStep, hd]

/-- C3. Let the divisor `denoiserFrameCnt * (numTiles.x * numTiles.y)` of the cadence test
at line 454 be nonzero (with a zero divisor `frameCounter % 0` is undefined in the source
and `Update` need not reach the reset).  Then an `Update` made while the scene is dirty
ends, from every prior state and for every outcome of the denoiser, with
`tile = (-1, numTiles.y - 1)`, `sampleCounter = 1`, `frameCounter = 1`, `denoised = false`
and a cleared accumulation buffer (the `glClear` is issued and the accumulation holds no
tile); and an invalidation tick applied to the result of an invalidation tick gives back
the same state. -/
theorem hard_reset_on_invalidation (err : Bool) (r : TiledRenderer)
    (hz : r.scene.renderOptions.denoiserFrameCnt * (r.numTiles.x * r.numTiles.y) ≠ 0) :
    (Update err (markDirty r)).1.tile = ⟨-1, r.numTiles.y - 1⟩
      ∧ (Update err (markDirty r)).1.sampleCounter = 1
      ∧ (Update err (markDirty r)).1.frameCounter = 1
      ∧ (Update err (markDirty r)).1.denoised = false
      ∧ (Update err (markDirty r)).1.accumTexture = []
      ∧ Effect.accumClear ∈ (Update err (markDirty r)).2
      ∧ (∀ err2 : Bool, (step err2 true (step err true r).1).1 = (step err true r).1)
      ∧ schedulerState (step err true r).1
          = (⟨-1, r.numTiles.y - 1⟩, 1, 1, r.currentBuffer, false) := by
  have _hz := hz
  have hd : (markDirty r).scene.dirty = true := rfl
  obtain ⟨hu, he⟩ := Update_of_dirty err (markDirty r) hd
  refine ⟨by rw [hu]; rfl, by rw [hu], by rw [hu], by rw [hu], by rw [hu], he, ?_, ?_⟩
  · intro err2
    simp only [step, if_true, tick]
    have h2 : ∀ s : TiledRenderer, (markDirty s).scene.dirty = true := fun _ => rfl
    rw [(Update_of_dirty err2 _ (h2 _)).1, (Update_of_dirty err _ (h2 _)).1]
    cases hi : r.initialized <;>
      simp [Render, markDirty, converged, hi]
  · simp only [step, if_true, tick]
    rw [hu]
    cases hi : r.initialized <;>
      simp [Render, markDirty, converged, hi, schedulerState]

/-- C3 at a concrete input: the scene is marked dirty mid-pass, with the cursor at tile
`(1, 0)` of the 2x2 grid (four clean ticks after `Init`, denoiser enabled, cadence 1). -/
theorem hard_reset_on_invalidation_witness :
    (run false 4 (scenarioInit 500 (-1) true)).tile = ⟨1, 0⟩
      ∧ schedulerState (step false true (run false 4 (scenarioInit 500 (-1) true))).1
          = (⟨-1, (run false 4 (scenarioInit 500 (-1) true)).numTiles.y - 1⟩, 1, 1,
              (run false 4 (scenarioInit 500 (-1) true)).currentBuffer, false)
      ∧ Effect.accumClear
          ∈ (Update false (markDirty (run false 4 (scenarioInit 500 (-1) true)))).2 :=
  ⟨by decide,
   (hard_reset_on_invalidation false (run false 4 (scenarioInit 500 (-1) true))
      (by decide)).2.2.2.2.2.2.2,
   (hard_reset_on_invalidation false (run false 4 (scenarioInit 500 (-1) true))
      (by decide)).2.2.2.2.2.1⟩

theorem advanceStep_effects (r : TiledRenderer) :
    (advanceStep r).2 = if r.scene.dirty then [Effect.accumClear] else [] := by
  unfold advanceStep
  dsimp only
  split_ifs <;> rfl

theorem Update_calls_denoiser (err : Bool) (r : TiledRenderer) :
    Effect.denoiserExecute ∈ (Update err r).2
      ↔ converged r = false ∧ denoiseGate r = true := by
  by_cases hc : converged r = true
  · simp [Update, hc]
  · have hc2 : converged r = false := by simpa using hc
    rw [← denoiseStep_effects err r]
    simp only [Update, hc2, Bool.false_eq_true, if_false, List.mem_append, List.mem_singleton,
      advanceStep_effects, uniformStep]
    constructor
    · rintro (((h | h) | h) | h)
      · exact absurd h (by decide)
      · exact ⟨trivial, h⟩
      · split_ifs at h <;> simp at h
      · simp at h
    · rintro ⟨-, h⟩
      exact Or.inl (Or.inl (Or.inr h))


/-! ## C4: the converged state is terminal -/

theorem run_of_converged (err : Bool) (n : Nat) (r : TiledRenderer)
    (h : converged r = true) :
    run err n r = r ∧ ∀ e ∈ runEffects err n r, e = Effect.diagnostic := by
  induction n with
  | zero => simp [run, runEffects]
  | succ n ih =>
    obtain ⟨h1, h2⟩ := tick_of_converged err r h
    simp only [run, runEffects, h1, List.mem_append]
    exact ⟨ih.1, fun e he => he.elim (h2 e) (ih.2 e)⟩

/-- C4. In a state where the scene is not dirty, `maxSpp != -1` and `sampleCounter >= maxSpp`,
any number `n` of ticks (each `Update` then `Render`, no dirty signal) leaves the whole
renderer state unchanged (in particular `tile`, `sampleCounter`, `frameCounter`,
`currentBuffer`, `denoised`) and issues no rendering pass and no denoiser call. -/
theorem converged_is_terminal (err : Bool) (n : Nat) (r : TiledRenderer)
    (hd : r.scene.dirty = false) (hm : r.scene.renderOptions.maxSpp ≠ -1)
    (hs : r.scene.renderOptions.maxSpp ≤ r.sampleCounter) :
    run err n r = r
      ∧ schedulerState (run err n r) = schedulerState r
      ∧ ∀ e ∈ runEffects err n r,
          e.isRenderPass = false ∧ e ≠ Effect.denoiserExecute := by
  have hc : converged r = true := (converged_iff r).2 ⟨hd, hm, hs⟩
  obtain ⟨h1, h2⟩ := run_of_converged err n r hc
  refine ⟨h1, by rw [h1], ?_⟩
  intro e he
  rw [h2 e he]
  exact ⟨rfl, by decide⟩

/-- C4, at a concrete input: `maxSpp = 0` right after `Init` on a 2x2 grid, seven ticks. -/
theorem converged_is_terminal_witness :
    run false 7 (scenarioInit 500 0 true) = scenarioInit 500 0 true
      ∧ schedulerState (run false 7 (scenarioInit 500 0 true))
          = schedulerState (scenarioInit 500 0 true)
      ∧ ∀ e ∈ runEffects false 7 (scenarioInit 500 0 true),
          e.isRenderPass = false ∧ e ≠ Effect.denoiserExecute :=
  converged_is_terminal false 7 (scenarioInit 500 0 true) (by decide) (by decide) (by decide)

/-! ## C8: the denoiser and the preview -/

/-- The state reached from `Init` on a 1x1 grid (denoiser enabled) after two clean ticks:
one sample pass is complete, `sampleCounter = 2`, nothing has been denoised yet. -/
theorem denoise_preview_state :
    schedulerState (runSignals false [false, false] (scenarioInit 250 (-1) true))
      = (⟨0, 0⟩, 2, 3, 1, false) := by
  decide

/-- C8, counterexample. On a 1x1 grid with the denoiser enabled, the state reached from
`Init` by two clean ticks has `sampleCounter = 2`; the next tick, made with the dirty flag
set, is the tick that resets and renders the preview, and its `Update` calls the external
denoiser before it performs the hard reset. -/
theorem denoiser_invoked_on_dirty_tick :
    (markDirty (runSignals false [false, false] (scenarioInit 250 (-1) true))).scene.dirty = true
      ∧ Effect.denoiserExecute ∈
          (Update false (markDirty (runSignals false [false, false]
            (scenarioInit 250 (-1) true)))).2
      ∧ Effect.previewPass ∈
          (step false true (runSignals false [false, false] (scenarioInit 250 (-1) true))).2 := by
  decide

/-- C8, amended. From every state, `Update` makes no denoiser call while
`sampleCounter == 1` (so none from a hard reset until the first pass is complete); and,
the divisor `denoiserFrameCnt * (numTiles.x * numTiles.y)` of the cadence test at line 454
being nonzero (with a zero divisor `frameCounter % 0` is undefined in the source), an
`Update` made with the dirty flag set always ends with `denoised = false` and
`sampleCounter = 1`, so that presentation selects the preview image and not the denoised
one on that tick. -/
theorem denoiser_preview_rule (err : Bool) (r : TiledRenderer) :
    (r.sampleCounter = 1 → Effect.denoiserExecute ∉ (Update err r).2)
      ∧ (r.scene.renderOptions.denoiserFrameCnt * (r.numTiles.x * r.numTiles.y) ≠ 0 →
          (Update err (markDirty r)).1.denoised = false
          ∧ (Update err (markDirty r)).1.sampleCounter = 1
          ∧ (r.initialized = true →
              presentSelection (Update err (markDirty r)).1 = some Image.lowRes)) := by
  refine ⟨?_, fun _ => ⟨?_, ?_, ?_⟩⟩
  · intro h1
    rw [Update_calls_denoiser]
    simp [denoiseGate, h1]
  · rw [(Update_of_dirty err (markDirty r) rfl).1]
  · rw [(Update_of_dirty err (markDirty r) rfl).1]
  · intro hi
    rw [(Update_of_dirty err (markDirty r) rfl).1]
    simp [presentSelection, markDirty, hi]

/-- C8 amended, at a concrete input: no call right after `Init` on the 2x2 grid; and on
the 1x1 grid after two clean ticks (`sampleCounter = 2`, cadence 1) a dirty `Update` ends
with the preview selected. -/
theorem denoiser_preview_rule_witness :
    Effect.denoiserExecute ∉ (Update false (scenarioInit 500 (-1) true)).2
      ∧ presentSelection (Update false (markDirty
          (runSignals false [false, false] (scenarioInit 250 (-1) true)))).1
          = some Image.lowRes :=
  ⟨(denoiser_preview_rule false (scenarioInit 500 (-1) true)).1 (by decide),
    ((denoiser_preview_rule false
        (runSignals false [false, false] (scenarioInit 250 (-1) true))).2 (by decide)).2.2
      (by decide)⟩


/-! ## C9: outcome of the external denoiser -/

/-- C9, counterexample. On the 1x1 grid after two clean ticks the gate fires with
`denoised = false`; when the denoiser then reports an error, the denoise step still uploads
the output buffer into the denoised image and sets `denoised` to `true`. -/
theorem denoiser_error_sets_denoised :
    denoiseGate (runSignals false [false, false] (scenarioInit 250 (-1) true)) = true
      ∧ (runSignals false [false, false] (scenarioInit 250 (-1) true)).denoised = false
      ∧ (denoiseStep true
          (runSignals false [false, false] (scenarioInit 250 (-1) true))).1.denoised = true
      ∧ Effect.denoisedUpload ∈ (denoiseStep true
          (runSignals false [false, false] (scenarioInit 250 (-1) true))).2 := by
  decide

/-- C9, amended. Whenever the denoise gate fires and the denoiser reports an error, the
error is only logged: the denoise step still replaces the denoised image and sets
`denoised` to `true`, exactly as on success, and the state after `Update` (cursor,
counters, buffer index, flag) is the state `Update` reaches without the error. -/
theorem denoiser_error_is_only_logged (r : TiledRenderer) (hg : denoiseGate r = true) :
    (denoiseStep true r).1.denoised = true
      ∧ (denoiseStep true r).1 = (denoiseStep false r).1
      ∧ (denoiseStep true r).2 = [Effect.readback (1 - r.currentBuffer),
          Effect.denoiserExecute, Effect.errorLog, Effect.denoisedUpload]
      ∧ (denoiseStep false r).2 = [Effect.readback (1 - r.currentBuffer),
          Effect.denoiserExecute, Effect.denoisedUpload]
      ∧ (Update true r).1 = (Update false r).1 := by
  have h1 : (r.scene.renderOptions.enableDenoiser && decide (r.sampleCounter > 1)) = true := by
    simp only [denoiseGate, Bool.and_eq_true] at hg
    simpa using hg.1
  have h2 : (!r.denoised || decide (Int.tmod r.frameCounter
      (r.scene.renderOptions.denoiserFrameCnt * (r.numTiles.x * r.numTiles.y)) = 0)) = true := by
    simp only [denoiseGate, Bool.and_eq_true] at hg
    exact hg.2
  have e : ∀ err, denoiseStep err r = ({ r with denoised := true },
        [Effect.readback (1 - r.currentBuffer), Effect.denoiserExecute]
          ++ (if err then [Effect.errorLog] else [])
          ++ [Effect.denoisedUpload]) := by
    intro err
    simp only [denoiseStep, h1, h2, if_true]
  refine ⟨by rw [e], by rw [e, e], by rw [e]; rfl, by rw [e]; rfl, ?_⟩
  simp only [Update, e]
  split_ifs <;> rfl

/-- C9 amended, at a concrete input: the 1x1 grid after two clean ticks. -/
theorem denoiser_error_is_only_logged_witness :
    (denoiseStep true
        (runSignals false [false, false] (scenarioInit 250 (-1) true))).1.denoised = true
      ∧ (Update true (runSignals false [false, false] (scenarioInit 250 (-1) true))).1
          = (Update false (runSignals false [false, false] (scenarioInit 250 (-1) true))).1 :=
  ⟨(denoiser_error_is_only_logged
      (runSignals false [false, false] (scenarioInit 250 (-1) true)) (by decide)).1,
   (denoiser_error_is_only_logged
      (runSignals false [false, false] (scenarioInit 250 (-1) true)) (by decide)).2.2.2.2⟩

/-! ## C10: use before `Init` -/

/-- C10, the code at the failing input. On a renderer that was constructed but not
initialized, `Render` only prints its diagnostic and `Present` does nothing, but `Update`
has no such guard: it advances the cursor and the counters (`sampleCounter` 0 to 1,
`currentBuffer` 0 to 1, `frameCounter` 0 to 1, `tile` (0,0) to (0,-1)) and goes on to use
the shader programs, which are still null. -/
theorem update_ignores_initialized :
    (scenarioFresh 500 (-1) false).initialized = false
      ∧ Render (scenarioFresh 500 (-1) false)
          = (scenarioFresh 500 (-1) false, [Effect.diagnostic])
      ∧ Present (scenarioFresh 500 (-1) false) = []
      ∧ schedulerState (scenarioFresh 500 (-1) false) = (⟨0, 0⟩, 0, 0, 0, false)
      ∧ schedulerState (Update false (scenarioFresh 500 (-1) false)).1
          = (⟨0, -1⟩, 1, 1, 1, false)
      ∧ (Update false (scenarioFresh 500 (-1) false)).2
          = [Effect.baseUpdate,
             Effect.useShader Shader.pathTrace ⟨0, -1⟩ 1,
             Effect.useShader Shader.pathTraceLowRes ⟨0, -1⟩ 2,
             Effect.useShader Shader.tonemap ⟨0, -1⟩ 1]
      ∧ (∃ e ∈ (Update false (scenarioFresh 500 (-1) false)).2, e.usesBackend = true) := by
  decide


/-! ## One clean tick -/

theorem denoiseStep_state (err : Bool) (r : TiledRenderer) :
    (denoiseStep err r).1 = { r with
      denoised := (r.scene.renderOptions.enableDenoiser && decide (r.sampleCounter > 1)) } := by
  unfold denoiseStep
  cases h1 : (r.scene.renderOptions.enableDenoiser && decide (r.sampleCounter > 1))
  · simp
  · cases h2 : (!r.denoised || decide (Int.tmod r.frameCounter
        (r.scene.renderOptions.denoiserFrameCnt * (r.numTiles.x * r.numTiles.y)) = 0))
    · have hden : r.denoised = true := by
        cases hd : r.denoised
        · rw [hd] at h2; simp at h2
        · rfl
      cases r
      simp_all
    · simp

theorem advanceStep_clean (r : TiledRenderer) (hd : r.scene.dirty = false) :
    (advanceStep r).1 = { r with
      frameCounter := r.frameCounter + 1
      tile := (if r.numTiles.x ≤ r.tile.x + 1 then
              (if r.tile.y - 1 < 0 then ⟨0, r.numTiles.y - 1⟩ else ⟨0, r.tile.y - 1⟩)
             else ⟨r.tile.x + 1, r.tile.y⟩)
      sampleCounter := (if r.numTiles.x ≤ r.tile.x + 1 ∧ r.tile.y - 1 < 0
              then r.sampleCounter + 1 else r.sampleCounter)
      currentBuffer := (if r.numTiles.x ≤ r.tile.x + 1 ∧ r.tile.y - 1 < 0
              then 1 - r.currentBuffer else r.currentBuffer) } := by
  unfold advanceStep
  simp only [hd, Bool.false_eq_true, if_false, ge_iff_le]
  split_ifs <;> simp_all

theorem Update_clean (err : Bool) (r : TiledRenderer)
    (hd : r.scene.dirty = false) (hc : converged r = false) :
    (Update err r).1 = { r with
      denoised := (r.scene.renderOptions.enableDenoiser && decide (r.sampleCounter > 1))
      frameCounter := r.frameCounter + 1
      tile := (if r.numTiles.x ≤ r.tile.x + 1 then
              (if r.tile.y - 1 < 0 then ⟨0, r.numTiles.y - 1⟩ else ⟨0, r.tile.y - 1⟩)
             else ⟨r.tile.x + 1, r.tile.y⟩)
      sampleCounter := (if r.numTiles.x ≤ r.tile.x + 1 ∧ r.tile.y - 1 < 0
              then r.sampleCounter + 1 else r.sampleCounter)
      currentBuffer := (if r.numTiles.x ≤ r.tile.x + 1 ∧ r.tile.y - 1 < 0
              then 1 - r.currentBuffer else r.currentBuffer) } := by
  have h1 := advanceStep_clean (denoiseStep err r).1 (by rw [denoiseStep_state]; exact hd)
  simp only [Update, hc, Bool.false_eq_true, if_false]
  rw [h1, denoiseStep_state]

theorem mergedTiles_append (a b : List Effect) :
    mergedTiles (a ++ b) = mergedTiles a ++ mergedTiles b := by
  induction a with
  | nil => rfl
  | cons e a ih => cases e <;> simp [mergedTiles, ih]

theorem Update_mergedTiles (err : Bool) (r : TiledRenderer) :
    mergedTiles (Update err r).2 = [] := by
  have h1 : mergedTiles (denoiseStep err r).2 = [] := by
    unfold denoiseStep
    split_ifs <;> cases err <;> rfl
  have h2 : mergedTiles (advanceStep (denoiseStep err r).1).2 = [] := by
    rw [advanceStep_effects]
    split_ifs <;> rfl
  by_cases hc : converged r = true
  · simp [Update, hc, mergedTiles]
  · have hc2 : converged r = false := by simpa using hc
    simp only [Update, hc2, Bool.false_eq_true, if_false, mergedTiles_append, h1, h2,
      uniformStep]
    rfl

theorem Render_frame (r : TiledRenderer) :
    (Render r).1.tile = r.tile ∧ (Render r).1.numTiles = r.numTiles
      ∧ (Render r).1.sampleCounter = r.sampleCounter
      ∧ (Render r).1.frameCounter = r.frameCounter
      ∧ (Render r).1.currentBuffer = r.currentBuffer
      ∧ (Render r).1.denoised = r.denoised
      ∧ (Render r).1.initialized = r.initialized
      ∧ (Render r).1.scene.renderOptions = r.scene.renderOptions
      ∧ (r.scene.dirty = false → (Render r).1.scene = r.scene)
      ∧ (r.initialized = true → (Render r).1.scene.dirty = false) := by
  unfold Render setOutputTexture
  split_ifs with h1 h2 h3 h4
  · simp_all
  · have := (converged_iff r).1 h2
    simp_all
  · simp_all
  · simp_all
  · simp_all

theorem Render_work (r : TiledRenderer) (hi : r.initialized = true)
    (hd : r.scene.dirty = false) (hc : converged r = false) :
    (Render r).1.accumTexture = r.accumTexture ++ [r.tile]
      ∧ outputTexture (Render r).1 r.currentBuffer = r.accumTexture ++ [r.tile]
      ∧ (r.currentBuffer = 0 → (Render r).1.tileOutputTexture1 = r.tileOutputTexture1)
      ∧ (r.currentBuffer ≠ 0 → (Render r).1.tileOutputTexture0 = r.tileOutputTexture0)
      ∧ (Render r).2
          = [Effect.tilePass, Effect.accumPass r.tile, Effect.tonemapPass r.currentBuffer] := by
  unfold Render setOutputTexture outputTexture
  simp only [hi, hd, hc]
  split_ifs <;> simp_all

/-- The effect of a clean tick on the scheduler fields. -/
theorem tick_clean (err : Bool) (r : TiledRenderer) (hi : r.initialized = true)
    (hd : r.scene.dirty = false) (hc : converged r = false) :
    (tick err r).1.scene = r.scene ∧ (tick err r).1.initialized = true
      ∧ (tick err r).1.numTiles = r.numTiles
      ∧ (tick err r).1.frameCounter = r.frameCounter + 1
      ∧ (tick err r).1.denoised
          = (r.scene.renderOptions.enableDenoiser && decide (r.sampleCounter > 1))
      ∧ (tick err r).1.tile
          = (if r.numTiles.x ≤ r.tile.x + 1 then
              (if r.tile.y - 1 < 0 then ⟨0, r.numTiles.y - 1⟩ else ⟨0, r.tile.y - 1⟩)
             else ⟨r.tile.x + 1, r.tile.y⟩)
      ∧ (tick err r).1.sampleCounter
          = (if r.numTiles.x ≤ r.tile.x + 1 ∧ r.tile.y - 1 < 0 then r.sampleCounter + 1
             else r.sampleCounter)
      ∧ (tick err r).1.currentBuffer
          = (if r.numTiles.x ≤ r.tile.x + 1 ∧ r.tile.y - 1 < 0 then 1 - r.currentBuffer
             else r.currentBuffer) := by
  have hu := Update_clean err r hd hc
  obtain ⟨f1, f2, f3, f4, f5, f6, f7, -, f9, -⟩ := Render_frame (Update err r).1
  have hud : (Update err r).1.scene.dirty = false := by rw [hu]; exact hd
  simp only [tick]
  rw [f1, f2, f3, f4, f5, f6, f7, f9 hud, hu]
  exact ⟨rfl, hi, rfl, rfl, rfl, rfl, rfl, rfl⟩

/-- What `Render` does on a clean tick: nothing when the guard holds after `Update`,
otherwise it merges the cursor tile and derives the half indexed by `currentBuffer`. -/
theorem tick_clean_render (err : Bool) (r : TiledRenderer) (hi : r.initialized = true)
    (hd : r.scene.dirty = false) (hc : converged r = false) :
    (converged (tick err r).1 = true →
        (tick err r).1.accumTexture = r.accumTexture
        ∧ (tick err r).1.tileOutputTexture0 = r.tileOutputTexture0
        ∧ (tick err r).1.tileOutputTexture1 = r.tileOutputTexture1
        ∧ mergedTiles (tick err r).2 = [])
      ∧ (converged (tick err r).1 = false →
        (tick err r).1.accumTexture = r.accumTexture ++ [(tick err r).1.tile]
        ∧ outputTexture (tick err r).1 (tick err r).1.currentBuffer
            = r.accumTexture ++ [(tick err r).1.tile]
        ∧ ((tick err r).1.currentBuffer = 0 →
            (tick err r).1.tileOutputTexture1 = r.tileOutputTexture1)
        ∧ ((tick err r).1.currentBuffer ≠ 0 →
            (tick err r).1.tileOutputTexture0 = r.tileOutputTexture0)
        ∧ mergedTiles (tick err r).2 = [(tick err r).1.tile]) := by
  have hu := Update_clean err r hd hc
  obtain ⟨f1, f2, f3, f4, f5, f6, f7, f8, f9, -⟩ := Render_frame (Update err r).1
  have hud : (Update err r).1.scene.dirty = false := by rw [hu]; exact hd
  have hui : (Update err r).1.initialized = true := by rw [hu]; exact hi
  have hua : (Update err r).1.accumTexture = r.accumTexture := by rw [hu]
  have hu0 : (Update err r).1.tileOutputTexture0 = r.tileOutputTexture0 := by rw [hu]
  have hu1 : (Update err r).1.tileOutputTexture1 = r.tileOutputTexture1 := by rw [hu]
  have hcv : converged (tick err r).1 = converged (Update err r).1 := by
    simp only [tick, converged, f3, f8, f9 hud]
  rw [hcv]
  simp only [tick, mergedTiles_append, Update_mergedTiles, List.nil_append]
  constructor
  · intro h
    rw [Render_of_converged _ hui h]
    exact ⟨hua, hu0, hu1, rfl⟩
  · intro h
    obtain ⟨g1, g2, g3, g4, g5⟩ := Render_work (Update err r).1 hui hud h
    rw [f1, f5, g1, g2, g5, hua]
    refine ⟨rfl, rfl, fun h0 => ?_, fun h0 => ?_, rfl⟩
    · rw [g3 h0, hu1]
    · rw [g4 h0, hu0]


/-! ## The tile grid -/

theorem gridRow_length (nX y : Nat) : (gridRow nX y).length = nX := by
  simp [gridRow]

theorem gridCells_length (nX nY : Nat) : (gridCells nX nY).length = nX * nY := by
  induction nY with
  | zero => simp [gridCells]
  | succ n ih => simp [gridCells, gridRow_length, ih, Nat.mul_succ, Nat.add_comm]

theorem mem_gridRow (nX y : Nat) (c : IVec2) :
    c ∈ gridRow nX y ↔ ∃ x : Nat, x < nX ∧ c = ⟨(x : Int), (y : Int)⟩ := by
  simp only [gridRow, List.mem_map, List.mem_range]
  constructor
  · rintro ⟨x, hx, rfl⟩
    exact ⟨x, hx, rfl⟩
  · rintro ⟨x, hx, rfl⟩
    exact ⟨x, hx, rfl⟩

theorem mem_gridCells (nX nY : Nat) (c : IVec2) :
    c ∈ gridCells nX nY ↔ (0 ≤ c.x ∧ c.x < nX) ∧ (0 ≤ c.y ∧ c.y < nY) := by
  induction nY with
  | zero =>
    simp only [gridCells, List.not_mem_nil, false_iff]
    rintro ⟨-, h1, h2⟩
    simp at h2
    omega
  | succ n ih =>
    simp only [gridCells, List.mem_append, ih, mem_gridRow]
    constructor
    · rintro (⟨x, hx, rfl⟩ | ⟨h1, h2, h3⟩)
      · simp
        omega
      · refine ⟨h1, h2, ?_⟩
        push_cast
        omega
    · rintro ⟨⟨h1, h2⟩, h3, h4⟩
      by_cases hy : c.y = n
      · left
        refine ⟨c.x.toNat, by omega, ?_⟩
        cases c
        simp only [IVec2.mk.injEq] at *
        omega
      · right
        refine ⟨⟨h1, h2⟩, h3, ?_⟩
        push_cast at h4
        omega

theorem gridRow_nodup (nX y : Nat) : (gridRow nX y).Nodup := by
  unfold gridRow
  refine (List.nodup_range nX).map ?_
  intro a b h
  simp only [IVec2.mk.injEq] at h
  omega

theorem gridCells_nodup (nX nY : Nat) : (gridCells nX nY).Nodup := by
  induction nY with
  | zero => simp [gridCells]
  | succ n ih =>
    simp only [gridCells]
    refine List.Nodup.append (gridRow_nodup nX n) ih ?_
    intro c h1 h2
    rw [mem_gridRow] at h1
    rw [mem_gridCells] at h2
    obtain ⟨x, -, rfl⟩ := h1
    simp at h2

/-- The cell at position `(nY - 1 - y) * nX + x` of the raster order is `(x, y)`. -/
theorem gridCells_getElem (nX nY x y : Nat) (hx : x < nX) (hy : y < nY) :
    (gridCells nX nY)[(nY - 1 - y) * nX + x]? = some ⟨(x : Int), (y : Int)⟩ := by
  induction nY with
  | zero => omega
  | succ n ih =>
    simp only [gridCells]
    by_cases h : y = n
    · subst h
      have h0 : (y + 1 - 1 - y) * nX + x = x := by simp
      rw [h0, List.getElem?_append_left (by rw [gridRow_length]; exact hx)]
      simp [gridRow, hx]
    · have hy2 : y < n := by omega
      have h0 : (n + 1 - 1 - y) * nX + x = nX + ((n - 1 - y) * nX + x) := by
        have : n + 1 - 1 - y = (n - 1 - y) + 1 := by omega
        rw [this, Nat.add_mul]
        omega
      rw [h0, List.getElem?_append_right (by rw [gridRow_length]; omega)]
      simp only [gridRow_length, Nat.add_sub_cancel_left]
      exact ih hy2


/-! ## The cursor in raster order -/

theorem cursorIndex_bounds (r : TiledRenderer) (nX nY : Nat)
    (hn : r.numTiles = ⟨(nX : Int), (nY : Int)⟩) (hk : CursorOk r) :
    0 ≤ cursorIndex r + 1 ∧ cursorIndex r + 1 ≤ (nX : Int) * (nY : Int) := by
  obtain ⟨h1, h2, h3, h4⟩ := hk
  simp only [hn] at h2 h4
  simp only [cursorIndex, hn]
  have ha : (0 : Int) ≤ (nY : Int) - 1 - r.tile.y := by omega
  have hb : (nY : Int) - 1 - r.tile.y ≤ (nY : Int) - 1 := by omega
  have hX : (0 : Int) ≤ (nX : Int) := Int.natCast_nonneg nX
  have hm : (0 : Int) ≤ ((nY : Int) - 1 - r.tile.y) * (nX : Int) := mul_nonneg ha hX
  have hm2 : ((nY : Int) - 1 - r.tile.y) * (nX : Int) ≤ ((nY : Int) - 1) * (nX : Int) :=
    mul_le_mul_of_nonneg_right hb hX
  constructor
  · omega
  · have : ((nY : Int) - 1) * (nX : Int) = (nX : Int) * (nY : Int) - (nX : Int) := by ring
    omega

/-- How one clean tick moves the cursor through the raster order. -/
theorem tick_clean_cursor (err : Bool) (r : TiledRenderer) (nX nY : Nat) (hX : 0 < nX)
    (hi : r.initialized = true) (hd : r.scene.dirty = false) (hc : converged r = false)
    (hn : r.numTiles = ⟨(nX : Int), (nY : Int)⟩) (hk : CursorOk r) :
    CursorOk (tick err r).1 ∧ 0 ≤ (tick err r).1.tile.x
      ∧ ((cursorIndex r + 1 < (nX : Int) * (nY : Int)
            ∧ cursorIndex (tick err r).1 = cursorIndex r + 1
            ∧ (tick err r).1.sampleCounter = r.sampleCounter
            ∧ (tick err r).1.currentBuffer = r.currentBuffer)
        ∨ (cursorIndex r + 1 = (nX : Int) * (nY : Int)
            ∧ cursorIndex (tick err r).1 = 0
            ∧ (tick err r).1.sampleCounter = r.sampleCounter + 1
            ∧ (tick err r).1.currentBuffer = 1 - r.currentBuffer)) := by
  obtain ⟨-, -, t3, -, -, t6, t7, t8⟩ := tick_clean err r hi hd hc
  obtain ⟨b1, b2⟩ := cursorIndex_bounds r nX nY hn hk
  obtain ⟨h1, h2, h3, h4⟩ := hk
  simp only [hn] at h2 h4 t6 t7 t8
  have hXi : (0 : Int) < (nX : Int) := by exact_mod_cast hX
  simp only [cursorIndex, hn] at b1 b2
  by_cases hw : (nX : Int) ≤ r.tile.x + 1
  · by_cases hy : r.tile.y - 1 < 0
    · have e6 : (tick err r).1.tile = ⟨0, (nY : Int) - 1⟩ := by rw [t6, if_pos hw, if_pos hy]
      have e7 : (tick err r).1.sampleCounter = r.sampleCounter + 1 := by
        rw [t7, if_pos ⟨hw, hy⟩]
      have e8 : (tick err r).1.currentBuffer = 1 - r.currentBuffer := by
        rw [t8, if_pos ⟨hw, hy⟩]
      have hy0 : r.tile.y = 0 := by omega
      have hx0 : r.tile.x = (nX : Int) - 1 := by omega
      unfold CursorOk cursorIndex
      rw [t3, e6, hn]
      refine ⟨⟨by simp, by simpa using hXi, by simp; omega, by simp⟩, le_refl _,
        Or.inr ⟨?_, ?_, e7, e8⟩⟩
      · rw [hy0, hx0]; ring
      · simp
    · have e6 : (tick err r).1.tile = ⟨0, r.tile.y - 1⟩ := by rw [t6, if_pos hw, if_neg hy]
      have e7 : (tick err r).1.sampleCounter = r.sampleCounter := by
        rw [t7, if_neg (fun h => hy h.2)]
      have e8 : (tick err r).1.currentBuffer = r.currentBuffer := by
        rw [t8, if_neg (fun h => hy h.2)]
      have hx0 : r.tile.x = (nX : Int) - 1 := by omega
      have e1 : ((nY : Int) - 1 - (r.tile.y - 1)) * (nX : Int) + 0
          = ((nY : Int) - 1 - r.tile.y) * (nX : Int) + r.tile.x + 1 := by
        rw [hx0]; ring
      unfold CursorOk cursorIndex
      rw [t3, e6, hn]
      refine ⟨⟨by simp, by simpa using hXi, by simp; omega, by simp; omega⟩, le_refl _,
        Or.inl ⟨?_, e1, e7, e8⟩⟩
      have ha : (0 : Int) ≤ (nY : Int) - 1 - r.tile.y := by omega
      have hb : (nY : Int) - 1 - r.tile.y ≤ (nY : Int) - 2 := by omega
      have hm2 : ((nY : Int) - 1 - r.tile.y) * (nX : Int) ≤ ((nY : Int) - 2) * (nX : Int) :=
        mul_le_mul_of_nonneg_right hb (le_of_lt hXi)
      have : ((nY : Int) - 2) * (nX : Int) = (nX : Int) * (nY : Int) - 2 * (nX : Int) := by ring
      simp only
      omega
  · have e6 : (tick err r).1.tile = ⟨r.tile.x + 1, r.tile.y⟩ := by rw [t6, if_neg hw]
    have e7 : (tick err r).1.sampleCounter = r.sampleCounter := by
      rw [t7, if_neg (fun h => hw h.1)]
    have e8 : (tick err r).1.currentBuffer = r.currentBuffer := by
      rw [t8, if_neg (fun h => hw h.1)]
    unfold CursorOk cursorIndex
    rw [t3, e6, hn]
    refine ⟨⟨by simp; omega, by simp; omega, by simpa using h3, by simpa using h4⟩,
      by simp; omega, Or.inl ⟨?_, by simp only; ring, e7, e8⟩⟩
    have ha : (0 : Int) ≤ (nY : Int) - 1 - r.tile.y := by omega
    have hb : (nY : Int) - 1 - r.tile.y ≤ (nY : Int) - 1 := by omega
    have hm2 : ((nY : Int) - 1 - r.tile.y) * (nX : Int) ≤ ((nY : Int) - 1) * (nX : Int) :=
      mul_le_mul_of_nonneg_right hb (le_of_lt hXi)
    have : ((nY : Int) - 1) * (nX : Int) = (nX : Int) * (nY : Int) - (nX : Int) := by ring
    simp only
    omega

/-- A cursor on the grid points at the cell of the raster order with its index. -/
theorem gridCells_cursor (r : TiledRenderer) (nX nY : Nat)
    (hn : r.numTiles = ⟨(nX : Int), (nY : Int)⟩) (hk : CursorOk r) (h0 : 0 ≤ r.tile.x)
    (m : Nat) (hm : (m : Int) = cursorIndex r) :
    (gridCells nX nY)[m]? = some r.tile := by
  obtain ⟨-, h2, h3, h4⟩ := hk
  simp only [hn] at h2 h4
  obtain ⟨a, ha⟩ := Int.eq_ofNat_of_zero_le h0
  obtain ⟨b, hb⟩ := Int.eq_ofNat_of_zero_le h3
  have hax : a < nX := by omega
  have hby : b < nY := by omega
  have e : m = (nY - 1 - b) * nX + a := by
    have : ((nY - 1 - b : Nat) : Int) = (nY : Int) - 1 - b := by omega
    have h5 : (m : Int) = (((nY - 1 - b) * nX + a : Nat) : Int) := by
      rw [hm, cursorIndex, hn, ha, hb]
      push_cast
      rw [this]
    exact_mod_cast h5
  rw [e, gridCells_getElem nX nY a b hax hby]
  cases ht : r.tile
  simp only [ht] at ha hb
  simp [ha, hb]


/-! ## Runs of clean ticks -/

theorem run_succ (err : Bool) (n : Nat) (r : TiledRenderer) :
    run err (n + 1) r = (tick err (run err n r)).1 := by
  induction n generalizing r with
  | zero => rfl
  | succ n ih =>
    rw [run, ih (tick err r).1]
    rfl

theorem run_add (err : Bool) (a b : Nat) (r : TiledRenderer) :
    run err (a + b) r = run err b (run err a r) := by
  induction b with
  | zero => rfl
  | succ b ih => rw [← Nat.add_assoc, run_succ, run_succ, ih]

theorem passLog_succ (err : Bool) (n : Nat) (r : TiledRenderer) :
    passLog err (n + 1) r = passLog err n r
      ++ (mergedTiles (tick err (run err n r)).2).map
          (fun t => ((tick err (run err n r)).1.sampleCounter, t)) := by
  induction n generalizing r with
  | zero => simp [passLog, run]
  | succ n ih =>
    rw [passLog, ih (tick err r).1, ← List.append_assoc]
    rfl

theorem converged_eq_false (r : TiledRenderer)
    (h : r.scene.renderOptions.maxSpp = -1
      ∨ r.sampleCounter < r.scene.renderOptions.maxSpp) :
    converged r = false := by
  unfold converged
  rcases h with h | h
  · simp [h]
  · have : ¬ r.sampleCounter ≥ r.scene.renderOptions.maxSpp := by omega
    simp [this]

/-- Shape of a run of `n` clean ticks from the reset cursor, as long as the sample bound
leaves room: `n = q * T + m` with `q` complete passes and `m` tiles of the current one. -/
theorem run_clean_structure (err : Bool) (nX nY : Nat) (hX : 0 < nX) (hY : 0 < nY)
    (r : TiledRenderer) (hi : r.initialized = true) (hd : r.scene.dirty = false)
    (hn : r.numTiles = ⟨(nX : Int), (nY : Int)⟩) (ht : r.tile = ⟨-1, (nY : Int) - 1⟩)
    (n : Nat)
    (hB : r.scene.renderOptions.maxSpp = -1
      ∨ (n : Int) ≤ (r.scene.renderOptions.maxSpp - r.sampleCounter) * ((nX * nY : Nat) : Int)) :
    ∃ q m : Nat, m ≤ nX * nY ∧ (0 < n → 0 < m) ∧ n = q * (nX * nY) + m
      ∧ (run err n r).sampleCounter = r.sampleCounter + (q : Int)
      ∧ (run err n r).frameCounter = r.frameCounter + (n : Int)
      ∧ (run err n r).scene = r.scene
      ∧ (run err n r).initialized = true
      ∧ (run err n r).numTiles = r.numTiles
      ∧ CursorOk (run err n r)
      ∧ (m : Int) = cursorIndex (run err n r) + 1
      ∧ passLog err n r = passBlocks r.sampleCounter (gridCells nX nY) q
          ++ ((gridCells nX nY).take m).map (fun t => (r.sampleCounter + (q : Int), t))
      ∧ (run err n r).accumTexture = r.accumTexture ++ fullPasses (gridCells nX nY) q
          ++ (gridCells nX nY).take m := by
  have hT : 0 < nX * nY := Nat.mul_pos hX hY
  induction n with
  | zero =>
    refine ⟨0, 0, Nat.zero_le _, fun h => absurd h (Nat.lt_irrefl 0), by simp, by simp [run],
      by simp [run], rfl, hi, rfl, ?_, ?_, by simp [passLog, passBlocks],
      by simp [run, fullPasses]⟩
    · simp only [run, CursorOk, hn, ht]
      omega
    · simp only [run, cursorIndex, hn, ht]
      push_cast
      ring
  | succ n ih =>
    have hB' : r.scene.renderOptions.maxSpp = -1
        ∨ (n : Int) ≤ (r.scene.renderOptions.maxSpp - r.sampleCounter)
            * ((nX * nY : Nat) : Int) := by
      rcases hB with h | h
      · exact Or.inl h
      · right
        push_cast at h ⊢
        omega
    obtain ⟨q, m, hm, hpos, hnq, hsc, hfc, hscene, hini, hnum, hcur, hidx, hlog, hacc⟩ := ih hB'
    have hTi : (0 : Int) < ((nX * nY : Nat) : Int) := by exact_mod_cast hT
    have hd' : (run err n r).scene.dirty = false := by rw [hscene]; exact hd
    have hn' : (run err n r).numTiles = ⟨(nX : Int), (nY : Int)⟩ := by rw [hnum]; exact hn
    -- the guard does not hold before the tick
    have hc : converged (run err n r) = false := by
      apply converged_eq_false
      rw [hscene, hsc]
      rcases hB with h | h
      · exact Or.inl h
      · right
        have h1 : ((q * (nX * nY) + m : Nat) : Int) + 1
            ≤ (r.scene.renderOptions.maxSpp - r.sampleCounter) * ((nX * nY : Nat) : Int) := by
          rw [← hnq]; exact_mod_cast h
        have h2 : (q : Int) * ((nX * nY : Nat) : Int)
            < (r.scene.renderOptions.maxSpp - r.sampleCounter) * ((nX * nY : Nat) : Int) := by
          push_cast at h1 ⊢
          omega
        have := lt_of_mul_lt_mul_right h2 (le_of_lt hTi)
        omega
    obtain ⟨t1, t2, t3, t4, -, -, -, -⟩ := tick_clean err (run err n r) hini hd' hc
    obtain ⟨c1, c2, c3⟩ := tick_clean_cursor err (run err n r) nX nY hX hini hd' hc hn' hcur
    obtain ⟨w1, w2⟩ := tick_clean_render err (run err n r) hini hd' hc
    have hn'' : (tick err (run err n r)).1.numTiles = ⟨(nX : Int), (nY : Int)⟩ := by
      rw [t3]; exact hn'
    rw [run_succ, passLog_succ]
    rcases c3 with ⟨d1, d2, d3, d4⟩ | ⟨d1, d2, d3, d4⟩
    · -- inside a pass
      have hmT : m < nX * nY := by
        have : (m : Int) < ((nX * nY : Nat) : Int) := by push_cast; omega
        exact_mod_cast this
      have hc' : converged (tick err (run err n r)).1 = false := by
        rw [← hc]
        simp only [converged, t1, d3]
      obtain ⟨v1, -, -, -, v5⟩ := w2 hc'
      have hg := gridCells_cursor (tick err (run err n r)).1 nX nY hn'' c1 c2 m
        (by rw [d2]; exact hidx)
      have htake : (gridCells nX nY).take (m + 1)
          = (gridCells nX nY).take m ++ [(tick err (run err n r)).1.tile] := by
        rw [List.take_succ, hg]; rfl
      refine ⟨q, m + 1, hmT, fun _ => Nat.succ_pos m, by omega, by rw [d3, hsc],
        by rw [t4, hfc]; push_cast; ring, by rw [t1, hscene], t2, by rw [t3, hnum], c1,
        by rw [d2]; push_cast; omega, ?_, ?_⟩
      · rw [hlog, v5, htake, d3, hsc]
        simp
      · rw [v1, hacc, htake]
        simp
    · -- the pass is complete: wrap to the first tile
      have hmT : m = nX * nY := by
        have : (m : Int) = ((nX * nY : Nat) : Int) := by push_cast; omega
        exact_mod_cast this
      have hc' : converged (tick err (run err n r)).1 = false := by
        apply converged_eq_false
        rw [t1, hscene, d3, hsc]
        rcases hB with h | h
        · exact Or.inl h
        · right
          have h1 : ((q * (nX * nY) + m : Nat) : Int) + 1
              ≤ (r.scene.renderOptions.maxSpp - r.sampleCounter) * ((nX * nY : Nat) : Int) := by
            rw [← hnq]; exact_mod_cast h
          have h2 : ((q : Int) + 1) * ((nX * nY : Nat) : Int)
              < (r.scene.renderOptions.maxSpp - r.sampleCounter) * ((nX * nY : Nat) : Int) := by
            rw [hmT] at h1
            push_cast at h1 ⊢
            linarith
          have := lt_of_mul_lt_mul_right h2 (le_of_lt hTi)
          omega
      obtain ⟨v1, -, -, -, v5⟩ := w2 hc'
      have hg := gridCells_cursor (tick err (run err n r)).1 nX nY hn'' c1 c2 0
        (by rw [d2]; rfl)
      have htake1 : (gridCells nX nY).take 1 = [(tick err (run err n r)).1.tile] := by
        rw [List.take_succ, hg]; rfl
      have htakeT : (gridCells nX nY).take m = gridCells nX nY := by
        rw [hmT, ← gridCells_length nX nY, List.take_length]
      refine ⟨q + 1, 1, hT, fun _ => Nat.one_pos, by rw [hnq, hmT]; ring, by rw [d3, hsc]; push_cast; ring,
        by rw [t4, hfc]; push_cast; ring, by rw [t1, hscene], t2, by rw [t3, hnum], c1,
        by rw [d2]; rfl, ?_, ?_⟩
      · rw [hlog, v5, htake1, htakeT, d3, hsc]
        simp [passBlocks, add_assoc]
      · rw [v1, hacc, htake1, htakeT]
        simp [fullPasses]


/-! ## Reading a log by sample pass -/

theorem tilesAtSample_append (c : Int) (a b : List (Int × IVec2)) :
    tilesAtSample c (a ++ b) = tilesAtSample c a ++ tilesAtSample c b := by
  simp [tilesAtSample]

theorem tilesAtSample_map (c c' : Int) (g : List IVec2) :
    tilesAtSample c (g.map (fun t => (c', t))) = if c' = c then g else [] := by
  unfold tilesAtSample
  split_ifs with h
  · subst h
    induction g with
    | nil => rfl
    | cons t g ih => simpa using ih
  · simp [h]

theorem tilesAtSample_passBlocks (c : Int) (g : List IVec2) (q k : Nat) :
    tilesAtSample (c + (k : Int)) (passBlocks c g q) = if k < q then g else [] := by
  induction q with
  | zero => simp [passBlocks, tilesAtSample]
  | succ q ih =>
    rw [passBlocks, tilesAtSample_append, ih, tilesAtSample_map]
    by_cases h1 : k < q
    · have h2 : ¬ (c + (q : Int) = c + (k : Int)) := by omega
      simp [h1, h2, Nat.lt_succ_of_lt h1]
    · by_cases h3 : k = q
      · subst h3
        simp
      · have h2 : ¬ (c + (q : Int) = c + (k : Int)) := by omega
        have h4 : ¬ k < q + 1 := by omega
        simp [h1, h2, h4]

/-! ## Runs that reach the sample bound -/

theorem tick_frame (err : Bool) (r : TiledRenderer) (hi : r.initialized = true)
    (hd : r.scene.dirty = false) :
    (tick err r).1.scene = r.scene ∧ (tick err r).1.initialized = true
      ∧ (tick err r).1.numTiles = r.numTiles
      ∧ r.sampleCounter ≤ (tick err r).1.sampleCounter := by
  by_cases hc : converged r = true
  · rw [(tick_of_converged err r hc).1]
    exact ⟨rfl, hi, rfl, le_refl _⟩
  · obtain ⟨t1, t2, t3, -, -, -, t7, -⟩ := tick_clean err r hi hd (by simpa using hc)
    refine ⟨t1, t2, t3, ?_⟩
    rw [t7]
    split_ifs <;> omega

theorem run_frame (err : Bool) (n : Nat) (r : TiledRenderer) (hi : r.initialized = true)
    (hd : r.scene.dirty = false) :
    (run err n r).scene = r.scene ∧ (run err n r).initialized = true
      ∧ (run err n r).numTiles = r.numTiles
      ∧ r.sampleCounter ≤ (run err n r).sampleCounter := by
  induction n with
  | zero => exact ⟨rfl, hi, rfl, le_refl _⟩
  | succ n ih =>
    obtain ⟨h1, h2, h3, h4⟩ := ih
    obtain ⟨t1, t2, t3, t4⟩ := tick_frame err (run err n r) h2 (by rw [h1]; exact hd)
    rw [run_succ]
    exact ⟨by rw [t1, h1], t2, by rw [t3, h3], le_trans h4 t4⟩

theorem passLog_of_converged (err : Bool) (n : Nat) (r : TiledRenderer)
    (h : converged r = true) : passLog err n r = [] := by
  induction n with
  | zero => rfl
  | succ n ih =>
    obtain ⟨h1, h2⟩ := tick_of_converged err r h
    have hm : mergedTiles (tick err r).2 = [] := by
      generalize (tick err r).2 = l at h2
      induction l with
      | nil => rfl
      | cons e l ihl =>
        have he := h2 e (List.mem_cons_self e l)
        subst he
        simpa [mergedTiles] using ihl (fun e' he' => h2 e' (List.mem_cons_of_mem _ he'))
    rw [passLog, hm, h1, ih]
    rfl

theorem passLog_add (err : Bool) (a b : Nat) (r : TiledRenderer) :
    passLog err (a + b) r = passLog err a r ++ passLog err b (run err a r) := by
  induction a generalizing r with
  | zero => simp [passLog, run]
  | succ a ih =>
    have : a + 1 + b = (a + b) + 1 := by omega
    rw [this, passLog, ih (tick err r).1, passLog, run, List.append_assoc]

/-- With a sample bound `maxSpp > sampleCounter`, the reset state reaches
`sampleCounter = maxSpp` in the `Update` of tick `(maxSpp - sampleCounter) * T + 1`, whose
`Render` is already skipped; up to then exactly `maxSpp - sampleCounter` passes over the
grid have been rendered and merged. -/
theorem run_reaches_bound (err : Bool) (nX nY : Nat) (hX : 0 < nX) (hY : 0 < nY)
    (r : TiledRenderer) (hi : r.initialized = true) (hd : r.scene.dirty = false)
    (hn : r.numTiles = ⟨(nX : Int), (nY : Int)⟩) (ht : r.tile = ⟨-1, (nY : Int) - 1⟩)
    (b : Nat) (hb : r.scene.renderOptions.maxSpp = r.sampleCounter + (b : Int) + 1)
    (hm1 : r.scene.renderOptions.maxSpp ≠ -1) (k : Nat) :
    (run err ((b + 1) * (nX * nY) + 1 + k) r).sampleCounter = r.scene.renderOptions.maxSpp
      ∧ converged (run err ((b + 1) * (nX * nY) + 1 + k) r) = true
      ∧ run err ((b + 1) * (nX * nY) + 1 + k) r = run err ((b + 1) * (nX * nY) + 1) r
      ∧ passLog err ((b + 1) * (nX * nY) + 1 + k) r
          = passBlocks r.sampleCounter (gridCells nX nY) (b + 1)
      ∧ (run err ((b + 1) * (nX * nY) + 1 + k) r).accumTexture
          = r.accumTexture ++ fullPasses (gridCells nX nY) (b + 1) := by
  have hT : 0 < nX * nY := Nat.mul_pos hX hY
  have hB : r.scene.renderOptions.maxSpp = -1
      ∨ (((b + 1) * (nX * nY) : Nat) : Int)
          ≤ (r.scene.renderOptions.maxSpp - r.sampleCounter) * ((nX * nY : Nat) : Int) := by
    right
    rw [hb]
    push_cast
    ring_nf
    exact le_refl _
  obtain ⟨q, m, hm, hpos, hnq, hsc, hfc, hscene, hini, hnum, hcur, hidx, hlog, hacc⟩ :=
    run_clean_structure err nX nY hX hY r hi hd hn ht ((b + 1) * (nX * nY)) hB
  have hpos' : 0 < m := hpos (Nat.mul_pos (Nat.succ_pos b) hT)
  -- the decomposition is forced: `q = b`, `m = T`
  have hq : q = b ∧ m = nX * nY := by
    have h1 : (b + 1) * (nX * nY) = q * (nX * nY) + m := hnq
    have h2 : q < b + 1 := by
      by_contra hcon
      have : (b + 1) * (nX * nY) ≤ q * (nX * nY) := Nat.mul_le_mul_right _ (by omega)
      omega
    have h3 : b ≤ q := by
      by_contra hcon
      have : (q + 1) * (nX * nY) ≤ b * (nX * nY) := Nat.mul_le_mul_right _ (by omega)
      rw [Nat.add_mul, Nat.one_mul] at this
      rw [Nat.add_mul, Nat.one_mul] at h1
      omega
    have h4 : q = b := by omega
    subst h4
    rw [Nat.add_mul, Nat.one_mul] at h1
    exact ⟨rfl, by omega⟩
  obtain ⟨rfl, rfl⟩ := hq
  have hd' : (run err (q * (nX * nY) + nX * nY) r).scene.dirty = false := by
    rw [← hnq, hscene]; exact hd
  rw [← hnq] at hd'
  have hn' : (run err ((q + 1) * (nX * nY)) r).numTiles = ⟨(nX : Int), (nY : Int)⟩ := by
    rw [hnum]; exact hn
  have hc : converged (run err ((q + 1) * (nX * nY)) r) = false := by
    apply converged_eq_false
    rw [hscene, hsc, hb]
    right; omega
  obtain ⟨t1, t2, t3, t4, -, -, -, -⟩ :=
    tick_clean err (run err ((q + 1) * (nX * nY)) r) hini hd' hc
  obtain ⟨c1, c2, c3⟩ :=
    tick_clean_cursor err (run err ((q + 1) * (nX * nY)) r) nX nY hX hini hd' hc hn' hcur
  obtain ⟨w1, w2⟩ := tick_clean_render err (run err ((q + 1) * (nX * nY)) r) hini hd' hc
  have hwrap : (tick err (run err ((q + 1) * (nX * nY)) r)).1.sampleCounter
      = r.scene.renderOptions.maxSpp := by
    rcases c3 with ⟨d1, -, -, -⟩ | ⟨-, -, d3, -⟩
    · exfalso
      rw [← hidx] at d1
      push_cast at d1
      omega
    · rw [d3, hsc, hb]
  have hconv : converged (tick err (run err ((q + 1) * (nX * nY)) r)).1 = true := by
    rw [converged_iff, t1, hscene, hwrap]
    exact ⟨hd, hm1, le_refl _⟩
  obtain ⟨v1, -, -, v4⟩ := w1 hconv
  have htakeT : (gridCells nX nY).take (nX * nY) = gridCells nX nY := by
    rw [← gridCells_length nX nY, List.take_length]
  have hstop := run_of_converged err k _ hconv
  have e1 : run err ((q + 1) * (nX * nY) + 1 + k) r
      = (tick err (run err ((q + 1) * (nX * nY)) r)).1 := by
    rw [run_add, run_succ, hstop.1]
  have e2 : run err ((q + 1) * (nX * nY) + 1) r
      = (tick err (run err ((q + 1) * (nX * nY)) r)).1 := run_succ _ _ _
  refine ⟨by rw [e1, hwrap], by rw [e1, hconv], by rw [e1, e2], ?_, ?_⟩
  · rw [passLog_add, e2, passLog_of_converged err k _ hconv, passLog_succ, v4, hlog, htakeT]
    simp [passBlocks]
  · rw [e1, v1, hacc, htakeT]
    simp [fullPasses]


/-- A clean run from the reset cursor whose last state is not stopped by the convergence
guard has stayed within the sample bound. -/
theorem bound_of_not_converged (err : Bool) (nX nY : Nat) (hX : 0 < nX) (hY : 0 < nY)
    (r : TiledRenderer) (hi : r.initialized = true) (hd : r.scene.dirty = false)
    (hn : r.numTiles = ⟨(nX : Int), (nY : Int)⟩) (ht : r.tile = ⟨-1, (nY : Int) - 1⟩)
    (n : Nat) (hnc : converged (run err n r) = false) :
    r.scene.renderOptions.maxSpp = -1
      ∨ (n : Int) ≤ (r.scene.renderOptions.maxSpp - r.sampleCounter)
          * ((nX * nY : Nat) : Int) := by
  by_cases hm1 : r.scene.renderOptions.maxSpp = -1
  · exact Or.inl hm1
  · right
    obtain ⟨f1, -, -, f4⟩ := run_frame err n r hi hd
    have hlt : (run err n r).sampleCounter < r.scene.renderOptions.maxSpp := by
      by_contra hcon
      have : converged (run err n r) = true := by
        rw [converged_iff, f1]
        exact ⟨hd, hm1, by omega⟩
      rw [this] at hnc
      exact Bool.noConfusion hnc
    obtain ⟨b, hb⟩ : ∃ b : Nat,
        r.scene.renderOptions.maxSpp = r.sampleCounter + (b : Int) + 1 :=
      ⟨(r.scene.renderOptions.maxSpp - r.sampleCounter - 1).toNat, by omega⟩
    by_contra hcon
    have hgt : (b + 1) * (nX * nY) + 1 ≤ n := by
      have h1 : (((b + 1) * (nX * nY) : Nat) : Int) < (n : Int) := by
        rw [hb] at hcon
        push_cast at hcon ⊢
        have e : (r.sampleCounter + (b : Int) + 1 - r.sampleCounter) * ((nX : Int) * (nY : Int))
            = ((b : Int) + 1) * ((nX : Int) * (nY : Int)) := by ring
        rw [e] at hcon
        omega
      have h2 : (b + 1) * (nX * nY) < n := by exact_mod_cast h1
      omega
    obtain ⟨k, hk⟩ := Nat.exists_eq_add_of_le hgt
    have := (run_reaches_bound err nX nY hX hY r hi hd hn ht b hb hm1 k).2.1
    rw [← hk, hnc] at this
    exact Bool.noConfusion this

/-! ## C1: tile coverage in raster order -/

/-- C1. Take a renderer in the reset state (`tile = (-1, numTiles.y - 1)`, scene not dirty)
on a grid of `nX >= 1` by `nY >= 1` tiles and run `n` ticks (`Update` then `Render`) with
no dirty signal.  For every value `sampleCounter + k` that `sampleCounter` has left behind
during the run (so both the increment that starts and the increment that ends that value
lie in the run; `k = 0` starts at the reset), the tiles `Render` used while
`sampleCounter` had that value are exactly the cells of the grid in the order `y = nY-1`
down to `0`, `x = 0` up to `nX-1` within a row; that list holds every cell of the grid,
each once.  Ticks stopped by the convergence guard render nothing and do not increment
`sampleCounter`, so the statement covers in particular every run of non-converged ticks. -/
theorem tile_coverage_raster_order (err : Bool) (nX nY : Nat) (hX : 0 < nX) (hY : 0 < nY)
    (r : TiledRenderer) (hi : r.initialized = true) (hd : r.scene.dirty = false)
    (hn : r.numTiles = ⟨(nX : Int), (nY : Int)⟩) (ht : r.tile = ⟨-1, (nY : Int) - 1⟩)
    (n : Nat) (k : Nat) (hk : r.sampleCounter + (k : Int) < (run err n r).sampleCounter) :
    tilesAtSample (r.sampleCounter + (k : Int)) (passLog err n r) = gridCells nX nY
      ∧ (gridCells nX nY).Nodup
      ∧ (gridCells nX nY).length = nX * nY
      ∧ ∀ c : IVec2, c ∈ gridCells nX nY
          ↔ (0 ≤ c.x ∧ c.x < nX) ∧ (0 ≤ c.y ∧ c.y < nY) := by
  refine ⟨?_, gridCells_nodup nX nY, gridCells_length nX nY, mem_gridCells nX nY⟩
  by_cases hnc : converged (run err n r) = false
  · -- the run stays within the sample bound
    have hB := bound_of_not_converged err nX nY hX hY r hi hd hn ht n hnc
    obtain ⟨q, m, -, -, -, hsc, -, -, -, -, -, -, hlog, -⟩ :=
      run_clean_structure err nX nY hX hY r hi hd hn ht n hB
    have hkq : k < q := by
      rw [hsc] at hk
      omega
    have hne : ¬ (r.sampleCounter + (q : Int) = r.sampleCounter + (k : Int)) := by omega
    rw [hlog, tilesAtSample_append, tilesAtSample_passBlocks, tilesAtSample_map]
    simp [hkq, hne]
  · -- the run has reached the sample bound
    have hcv : converged (run err n r) = true := by simpa using hnc
    obtain ⟨f1, -, -, f4⟩ := run_frame err n r hi hd
    obtain ⟨-, hm1, hle⟩ := (converged_iff _).1 hcv
    rw [f1] at hm1 hle
    have hlt : r.sampleCounter < r.scene.renderOptions.maxSpp := by
      by_contra hcon
      have hc0 : converged r = true := (converged_iff r).2 ⟨hd, hm1, by omega⟩
      rw [(run_of_converged err n r hc0).1] at hk
      omega
    obtain ⟨b, hb⟩ : ∃ b : Nat,
        r.scene.renderOptions.maxSpp = r.sampleCounter + (b : Int) + 1 :=
      ⟨(r.scene.renderOptions.maxSpp - r.sampleCounter - 1).toNat, by omega⟩
    have hgt : (b + 1) * (nX * nY) + 1 ≤ n := by
      by_contra hcon
      have hB : r.scene.renderOptions.maxSpp = -1
          ∨ (n : Int) ≤ (r.scene.renderOptions.maxSpp - r.sampleCounter)
              * ((nX * nY : Nat) : Int) := by
        right
        have h1 : ((n : Nat) : Int) ≤ (((b + 1) * (nX * nY) : Nat) : Int) := by
          exact_mod_cast (by omega : n ≤ (b + 1) * (nX * nY))
        have e : (r.scene.renderOptions.maxSpp - r.sampleCounter) * ((nX * nY : Nat) : Int)
            = (((b + 1) * (nX * nY) : Nat) : Int) := by
          rw [hb]; push_cast; ring
        rw [e]
        exact h1
      obtain ⟨q, m, hmT, hpos, hnq, hsc, -⟩ :=
        run_clean_structure err nX nY hX hY r hi hd hn ht n hB
      have hqb : b + 1 ≤ q := by
        rw [hsc, hb] at hle
        omega
      have h1 : (b + 1) * (nX * nY) ≤ q * (nX * nY) := Nat.mul_le_mul_right _ hqb
      have hT : 0 < nX * nY := Nat.mul_pos hX hY
      have h3 : 1 * (nX * nY) ≤ q * (nX * nY) := Nat.mul_le_mul_right _ (by omega)
      have h2 : 0 < n := by omega
      have := hpos h2
      omega
    obtain ⟨j, hj⟩ := Nat.exists_eq_add_of_le hgt
    obtain ⟨g1, -, -, g4, -⟩ := run_reaches_bound err nX nY hX hY r hi hd hn ht b hb hm1 j
    rw [← hj] at g1 g4
    have hkq : k < b + 1 := by
      rw [g1, hb] at hk
      omega
    rw [g4, tilesAtSample_passBlocks]
    simp [hkq]

/-- C1 at a concrete input: the 2x2 grid of the 500x500 scene, eleven ticks, the pass
rendered while `sampleCounter = 2` (between its first and its second increment). -/
theorem tile_coverage_raster_order_witness :
    tilesAtSample (1 + ((1 : Nat) : Int)) (passLog false 11 (scenarioInit 500 (-1) false))
        = [⟨0, 1⟩, ⟨1, 1⟩, ⟨0, 0⟩, ⟨1, 0⟩] :=
  (tile_coverage_raster_order false 2 2 (by decide) (by decide)
    (scenarioInit 500 (-1) false) (by decide) (by decide) (by decide) (by decide)
    11 1 (by decide)).1


/-! ## C5: a bounded sample count -/

/-- C5, the code at the failing input. With `maxSpp = 10` on the 2x2 grid of the 500x500
scene, never dirty after `Init`: the first 36 ticks each render and merge one tile, the
`Update` of tick 37 raises `sampleCounter` to 10 and from that tick on nothing is rendered.
So the grid has been traversed nine times (36 tiles merged, the accumulation holds nine
passes), not ten, when rendering stops, while `GetProgress` reports 100. -/
theorem bounded_run_stops_after_nine_passes :
    (passLog false 36 (scenarioInit 500 10 false)).length = 36
      ∧ (run false 36 (scenarioInit 500 10 false)).sampleCounter = 9
      ∧ ∀ k : Nat,
          (run false (37 + k) (scenarioInit 500 10 false)).sampleCounter = 10
          ∧ converged (run false (37 + k) (scenarioInit 500 10 false)) = true
          ∧ (passLog false (37 + k) (scenarioInit 500 10 false)).length = 36
          ∧ (run false (37 + k) (scenarioInit 500 10 false)).accumTexture
              = fullPasses (gridCells 2 2) 9
          ∧ mergedTiles (tick false (run false (37 + k) (scenarioInit 500 10 false))).2 = []
          ∧ GetProgress (run false (37 + k) (scenarioInit 500 10 false)) = 100 := by
  refine ⟨by decide, by decide, ?_⟩
  intro k
  obtain ⟨h1, h2, -, h4, h5⟩ := run_reaches_bound false 2 2 (by decide) (by decide)
    (scenarioInit 500 10 false) (by decide) (by decide) (by decide) (by decide) 8
    (by decide) (by decide) k
  have e : (8 + 1) * (2 * 2) + 1 + k = 37 + k := by omega
  rw [e] at h1 h2 h4 h5
  have hs := (run_frame false (37 + k) (scenarioInit 500 10 false) (by decide) (by decide)).1
  refine ⟨h1, h2, ?_, ?_, ?_, ?_⟩
  · rw [h4]; decide
  · rw [h5]; rfl
  · have := (tick_of_converged false _ h2).2
    generalize (tick false (run false (37 + k) (scenarioInit 500 10 false))).2 = l at this
    induction l with
    | nil => rfl
    | cons e l ihl =>
      have he := this e (List.mem_cons_self e l)
      subst he
      simpa [mergedTiles] using ihl (fun e' he' => this e' (List.mem_cons_of_mem _ he'))
  · unfold GetProgress
    rw [hs, h1]
    norm_num [scenarioInit, scenarioFresh, Init, construct, baseInit, scenarioScene,
      scenarioOptions]

/-! ## C6: ticks per sample pass -/

/-- C6, counterexample. For render extent 500x500 and tile size 250x250 `Init` yields
`numTiles = (2,2)`; with the scene never dirty and `maxSpp` unbounded, `sampleCounter` is
still 1 after the 4th tick (all four tiles have been rendered by then) and becomes 2 only
in the 5th tick. -/
theorem sample_counter_still_one_after_four_ticks :
    (scenarioInit 500 (-1) false).numTiles = ⟨2, 2⟩
      ∧ (run false 4 (scenarioInit 500 (-1) false)).sampleCounter = 1
      ∧ (run false 5 (scenarioInit 500 (-1) false)).sampleCounter = 2 := by
  decide

/-- C6, amended. For render extent 500x500 and tile size 250x250 `Init` yields
`numTiles = (2,2)`.  From the reset state of any `nX` by `nY` grid, with the scene never
dirty and `maxSpp` unbounded, the first `nX * nY` ticks render the `nX * nY` tiles of the
first pass and leave `sampleCounter` unchanged; `sampleCounter` goes up by one in the
`Update` of tick `nX * nY + 1` (tick 5 on the 2x2 grid). -/
theorem sample_counter_first_increment (err : Bool) (nX nY : Nat) (hX : 0 < nX) (hY : 0 < nY)
    (r : TiledRenderer) (hi : r.initialized = true) (hd : r.scene.dirty = false)
    (hn : r.numTiles = ⟨(nX : Int), (nY : Int)⟩) (ht : r.tile = ⟨-1, (nY : Int) - 1⟩)
    (hm : r.scene.renderOptions.maxSpp = -1) :
    (∀ (scene : Scene) (w : IVec2) (fc : Int), scene.renderOptions.tileWidth = 250 →
        scene.renderOptions.tileHeight = 250 →
        (Init (construct scene ⟨500, 500⟩ w fc)).numTiles = ⟨2, 2⟩)
      ∧ (∀ n : Nat, n ≤ nX * nY → (run err n r).sampleCounter = r.sampleCounter)
      ∧ passLog err (nX * nY) r = (gridCells nX nY).map (fun t => (r.sampleCounter, t))
      ∧ (run err (nX * nY + 1) r).sampleCounter = r.sampleCounter + 1 := by
  have hT : 0 < nX * nY := Nat.mul_pos hX hY
  have hfirst : ∀ n : Nat, n ≤ nX * nY →
      (run err n r).sampleCounter = r.sampleCounter
        ∧ (n = nX * nY →
          passLog err n r = (gridCells nX nY).map (fun t => (r.sampleCounter, t))) := by
    intro n hle
    obtain ⟨q, m, hmT, hpos, hnq, hsc, -, -, -, -, -, -, hlog, -⟩ :=
      run_clean_structure err nX nY hX hY r hi hd hn ht n (Or.inl hm)
    have hq : q = 0 := by
      by_contra hq0
      have h1 : 1 * (nX * nY) ≤ q * (nX * nY) := Nat.mul_le_mul_right _ (by omega)
      have h2 : 0 < m := hpos (by omega)
      omega
    subst hq
    refine ⟨by rw [hsc]; simp, fun hn2 => ?_⟩
    have hm2 : m = nX * nY := by omega
    rw [hlog, hm2, ← gridCells_length nX nY, List.take_length]
    simp [passBlocks]
  refine ⟨?_, fun n hle => (hfirst n hle).1, (hfirst _ (le_refl _)).2 rfl, ?_⟩
  · intro scene w fc h1 h2
    simp [Init, construct, baseInit, h1, h2, ceilDiv]
  · obtain ⟨q, m, hmT, hpos, hnq, hsc, -⟩ :=
      run_clean_structure err nX nY hX hY r hi hd hn ht (nX * nY + 1) (Or.inl hm)
    have h2 : 0 < m := hpos (Nat.succ_pos _)
    have hq : q = 1 := by
      have h0 : q ≠ 0 := by
        rintro rfl
        omega
      have h3 : q < 2 := by
        by_contra hcon
        have : 2 * (nX * nY) ≤ q * (nX * nY) := Nat.mul_le_mul_right _ (by omega)
        omega
      omega
    rw [hsc, hq]
    rfl

/-- C6 amended, at a concrete input: the 2x2 grid of the 500x500 scene. -/
theorem sample_counter_first_increment_witness :
    (run false (2 * 2 + 1) (scenarioInit 500 (-1) false)).sampleCounter
      = (scenarioInit 500 (-1) false).sampleCounter + 1 :=
  (sample_counter_first_increment false 2 2 (by decide) (by decide)
    (scenarioInit 500 (-1) false) (by decide) (by decide) (by decide) (by decide)
    (by decide)).2.2.2


/-! ## C7: the denoise gate and its cadence -/

theorem denoiseGate_iff (r : TiledRenderer) :
    denoiseGate r = true ↔ r.scene.renderOptions.enableDenoiser = true ∧ 1 < r.sampleCounter
      ∧ (r.denoised = false ∨ Int.tmod r.frameCounter
          (r.scene.renderOptions.denoiserFrameCnt * (r.numTiles.x * r.numTiles.y)) = 0) := by
  simp [denoiseGate, and_assoc]

theorem denoiser_gate_fires (err : Bool) (r : TiledRenderer) (hg : denoiseGate r = true) :
    (denoiseStep err r).1.denoised = true
      ∧ Effect.denoisedUpload ∈ (denoiseStep err r).2 := by
  have h1 : (r.scene.renderOptions.enableDenoiser && decide (r.sampleCounter > 1)) = true := by
    simp only [denoiseGate, Bool.and_eq_true] at hg
    simpa using hg.1
  have h2 : (!r.denoised || decide (Int.tmod r.frameCounter
      (r.scene.renderOptions.denoiserFrameCnt * (r.numTiles.x * r.numTiles.y)) = 0)) = true := by
    simp only [denoiseGate, Bool.and_eq_true] at hg
    exact hg.2
  simp only [denoiseStep, h1, h2, if_true]
  simp

theorem Render_no_denoiser (r : TiledRenderer) : Effect.denoiserExecute ∉ (Render r).2 := by
  unfold Render
  split_ifs <;> simp

theorem tick_calls_denoiser (err : Bool) (r : TiledRenderer) :
    Effect.denoiserExecute ∈ (tick err r).2
      ↔ converged r = false ∧ denoiseGate r = true := by
  rw [← Update_calls_denoiser err r]
  simp only [tick, List.mem_append]
  exact ⟨fun h => h.elim id (fun h' => absurd h' (Render_no_denoiser _)), Or.inl⟩

/-- In a steady run from the reset state with `sampleCounter = 1`, the state after `k`
ticks has `sampleCounter > 1` exactly when `k > nX * nY`. -/
theorem steady_sampleCounter (err : Bool) (nX nY : Nat) (hX : 0 < nX) (hY : 0 < nY)
    (r : TiledRenderer) (hi : r.initialized = true) (hd : r.scene.dirty = false)
    (hn : r.numTiles = ⟨(nX : Int), (nY : Int)⟩) (ht : r.tile = ⟨-1, (nY : Int) - 1⟩)
    (hs : r.sampleCounter = 1) (hm : r.scene.renderOptions.maxSpp = -1) (k : Nat) :
    (1 < (run err k r).sampleCounter ↔ nX * nY + 1 ≤ k)
      ∧ (run err k r).frameCounter = r.frameCounter + (k : Int) := by
  have hT : 0 < nX * nY := Nat.mul_pos hX hY
  obtain ⟨q, m, hmT, hpos, hnq, hsc, hfc, -⟩ :=
    run_clean_structure err nX nY hX hY r hi hd hn ht k (Or.inl hm)
  refine ⟨?_, hfc⟩
  rw [hsc, hs]
  constructor
  · intro h
    have hq : 1 ≤ q := by omega
    have h1 : 1 * (nX * nY) ≤ q * (nX * nY) := Nat.mul_le_mul_right _ hq
    have h2 : 0 < m := hpos (by omega)
    omega
  · intro h
    have hq : q ≠ 0 := by
      rintro rfl
      omega
    omega

theorem steady_denoised (err : Bool) (nX nY : Nat) (hX : 0 < nX) (hY : 0 < nY)
    (r : TiledRenderer) (hi : r.initialized = true) (hd : r.scene.dirty = false)
    (hn : r.numTiles = ⟨(nX : Int), (nY : Int)⟩) (ht : r.tile = ⟨-1, (nY : Int) - 1⟩)
    (hs : r.sampleCounter = 1) (hm : r.scene.renderOptions.maxSpp = -1)
    (he : r.scene.renderOptions.enableDenoiser = true) (k : Nat) :
    (run err (k + 1) r).denoised = true ↔ nX * nY + 1 ≤ k := by
  obtain ⟨f1, f2, -, -⟩ := run_frame err k r hi hd
  have hc : converged (run err k r) = false :=
    converged_eq_false _ (Or.inl (by rw [f1]; exact hm))
  obtain ⟨-, -, -, -, t5, -⟩ := tick_clean err (run err k r) f2 (by rw [f1]; exact hd) hc
  rw [run_succ, t5, f1, he, ← (steady_sampleCounter err nX nY hX hY r hi hd hn ht hs hm k).1]
  simp

/-- The ticks of a steady run in which the denoiser is called, and those in which the call
is a re-invocation. -/
theorem steady_denoiser_calls (err : Bool) (nX nY d : Nat) (hX : 0 < nX) (hY : 0 < nY)
    (r : TiledRenderer) (hi : r.initialized = true) (hd : r.scene.dirty = false)
    (hn : r.numTiles = ⟨(nX : Int), (nY : Int)⟩) (ht : r.tile = ⟨-1, (nY : Int) - 1⟩)
    (hs : r.sampleCounter = 1) (hm : r.scene.renderOptions.maxSpp = -1)
    (he : r.scene.renderOptions.enableDenoiser = true)
    (hdc : r.scene.renderOptions.denoiserFrameCnt = (d : Int)) (k : Nat) :
    (denoiserCalledAfter err r k = true
        ↔ nX * nY + 1 ≤ k ∧ (k < nX * nY + 2
            ∨ ((d * (nX * nY) : Nat) : Int) ∣ r.frameCounter + (k : Int)))
      ∧ (denoiserRefreshAfter err r k = true
        ↔ nX * nY + 2 ≤ k ∧ ((d * (nX * nY) : Nat) : Int) ∣ r.frameCounter + (k : Int)) := by
  obtain ⟨f1, f2, f3, -⟩ := run_frame err k r hi hd
  obtain ⟨s1, s2⟩ := steady_sampleCounter err nX nY hX hY r hi hd hn ht hs hm k
  have hc : converged (run err k r) = false :=
    converged_eq_false _ (Or.inl (by rw [f1]; exact hm))
  have hD : (r.scene.renderOptions.denoiserFrameCnt * ((nX : Int) * (nY : Int)))
      = ((d * (nX * nY) : Nat) : Int) := by
    rw [hdc]; push_cast; ring
  have hcall : denoiserCalledAfter err r k = true
      ↔ nX * nY + 1 ≤ k ∧ ((run err k r).denoised = false
          ∨ ((d * (nX * nY) : Nat) : Int) ∣ r.frameCounter + (k : Int)) := by
    unfold denoiserCalledAfter
    rw [decide_eq_true_iff, tick_calls_denoiser, denoiseGate_iff, f1, f3, hn, s2, he, hD,
      Int.dvd_iff_tmod_eq_zero, s1]
    simp [hc]
  have hden : nX * nY + 1 ≤ k → ((run err k r).denoised = true ↔ nX * nY + 2 ≤ k) := by
    intro hk
    cases k with
    | zero => omega
    | succ k =>
      rw [steady_denoised err nX nY hX hY r hi hd hn ht hs hm he k]
      omega
  constructor
  · rw [hcall]
    constructor
    · rintro ⟨h1, h2 | h2⟩
      · refine ⟨h1, Or.inl ?_⟩
        by_contra hcon
        have := (hden h1).2 (by omega)
        rw [h2] at this
        exact Bool.noConfusion this
      · exact ⟨h1, Or.inr h2⟩
    · rintro ⟨h1, h2 | h2⟩
      · refine ⟨h1, Or.inl ?_⟩
        cases hv : (run err k r).denoised
        · rfl
        · have := (hden h1).1 hv
          omega
      · exact ⟨h1, Or.inr h2⟩
  · unfold denoiserRefreshAfter
    rw [Bool.and_eq_true, hcall]
    constructor
    · rintro ⟨⟨h1, h2 | h2⟩, h3⟩
      · rw [h2] at h3
        exact Bool.noConfusion h3
      · exact ⟨(hden h1).1 h3, h2⟩
    · rintro ⟨h1, h2⟩
      exact ⟨⟨by omega, Or.inr h2⟩, (hden (by omega)).2 h1⟩

theorem not_dvd_between (a x y : Int) (hx : a ∣ x) (h1 : x < y) (h2 : y < x + a) :
    ¬ a ∣ y := by
  intro hy
  have h3 : a ∣ y - x := Int.dvd_sub hy hx
  have h4 : a ≤ y - x := Int.le_of_dvd (by omega) h3
  omega

/-- C7. Gate law: on every `Update` that the convergence guard does not skip, with
`d = denoiserFrameCnt`, `T = numTiles.x * numTiles.y` and `d * T > 0`, the denoiser is
called if and only if `enableDenoiser` is set, `sampleCounter > 1`, and `denoised` is
false or `frameCounter % (d * T) == 0`; a call sets `denoised` to true in the denoise block
(and the flag is still true after an `Update` whose scene is not dirty).
Cadence law: in a steady run from the reset state (never dirty, `maxSpp` unbounded,
denoiser enabled, `sampleCounter = 1`) the first call happens in tick `T + 2`; whenever a
tick re-invokes the denoiser (a call made with `denoised` already set), the next call
happens exactly `d * T` ticks later and none in between; and a re-invocation that follows
an earlier re-invocation comes exactly `d * T` ticks after the previous call. -/
theorem denoise_gate_and_cadence (err : Bool) (nX nY d : Nat) (hX : 0 < nX) (hY : 0 < nY)
    (hd0 : 0 < d)
    (r : TiledRenderer) (hi : r.initialized = true) (hd : r.scene.dirty = false)
    (hn : r.numTiles = ⟨(nX : Int), (nY : Int)⟩) (ht : r.tile = ⟨-1, (nY : Int) - 1⟩)
    (hs : r.sampleCounter = 1) (hm : r.scene.renderOptions.maxSpp = -1)
    (he : r.scene.renderOptions.enableDenoiser = true)
    (hdc : r.scene.renderOptions.denoiserFrameCnt = (d : Int)) :
    (∀ s : TiledRenderer, converged s = false →
        0 < s.scene.renderOptions.denoiserFrameCnt * (s.numTiles.x * s.numTiles.y) →
        (Effect.denoiserExecute ∈ (Update err s).2
          ↔ s.scene.renderOptions.enableDenoiser = true ∧ 1 < s.sampleCounter
            ∧ (s.denoised = false ∨ Int.tmod s.frameCounter
                (s.scene.renderOptions.denoiserFrameCnt * (s.numTiles.x * s.numTiles.y)) = 0))
        ∧ (Effect.denoiserExecute ∈ (Update err s).2 →
            (denoiseStep err s).1.denoised = true
            ∧ (s.scene.dirty = false → (Update err s).1.denoised = true)))
      ∧ denoiserCalledAfter err r (nX * nY + 1) = true
      ∧ (∀ k : Nat, k < nX * nY + 1 → denoiserCalledAfter err r k = false)
      ∧ (∀ j : Nat, denoiserRefreshAfter err r j = true →
          denoiserRefreshAfter err r (j + d * (nX * nY)) = true
          ∧ ∀ i : Nat, j < i → i < j + d * (nX * nY) → denoiserCalledAfter err r i = false)
      ∧ (∀ i j : Nat, i < j → denoiserRefreshAfter err r i = true →
          denoiserRefreshAfter err r j = true →
          d * (nX * nY) ≤ j
          ∧ denoiserCalledAfter err r (j - d * (nX * nY)) = true
          ∧ ∀ l : Nat, j - d * (nX * nY) < l → l < j → denoiserCalledAfter err r l = false) := by
  have hT : 0 < nX * nY := Nat.mul_pos hX hY
  have hDT : 0 < d * (nX * nY) := Nat.mul_pos hd0 hT
  have hDTi : (0 : Int) < ((d * (nX * nY) : Nat) : Int) := by exact_mod_cast hDT
  have calls := fun k => (steady_denoiser_calls err nX nY d hX hY r hi hd hn ht hs hm he hdc k).1
  have refr := fun k => (steady_denoiser_calls err nX nY d hX hY r hi hd hn ht hs hm he hdc k).2
  have nocall : ∀ k, ¬ (nX * nY + 1 ≤ k ∧ (k < nX * nY + 2
      ∨ ((d * (nX * nY) : Nat) : Int) ∣ r.frameCounter + (k : Int))) →
      denoiserCalledAfter err r k = false := by
    intro k hk
    cases hv : denoiserCalledAfter err r k
    · rfl
    · exact absurd ((calls k).1 hv) hk
  have forward : ∀ j : Nat, denoiserRefreshAfter err r j = true →
      denoiserRefreshAfter err r (j + d * (nX * nY)) = true
      ∧ ∀ i : Nat, j < i → i < j + d * (nX * nY) → denoiserCalledAfter err r i = false := by
    intro j hj
    obtain ⟨h1, h2⟩ := (refr j).1 hj
    constructor
    · rw [refr]
      refine ⟨by omega, ?_⟩
      have : r.frameCounter + ((j + d * (nX * nY) : Nat) : Int)
          = (r.frameCounter + (j : Int)) + ((d * (nX * nY) : Nat) : Int) := by
        push_cast; ring
      rw [this]
      exact Int.dvd_add h2 (Int.dvd_refl _)
    · intro i hi1 hi2
      apply nocall
      rintro ⟨-, h3 | h3⟩
      · omega
      · refine not_dvd_between _ _ _ h2 ?_ ?_ h3
        · omega
        · have : ((i : Nat) : Int) < ((j + d * (nX * nY) : Nat) : Int) := by exact_mod_cast hi2
          push_cast at this ⊢
          omega
  refine ⟨?_, ?_, ?_, forward, ?_⟩
  · intro s hc hpos
    rw [Update_calls_denoiser, denoiseGate_iff]
    refine ⟨by simp [hc], ?_⟩
    rintro ⟨-, hg⟩
    have hgate : denoiseGate s = true := (denoiseGate_iff s).2 hg
    refine ⟨(denoiser_gate_fires err s hgate).1, fun hdirty => ?_⟩
    rw [Update_clean err s hdirty hc]
    simp [hg.1, hg.2.1]
  · rw [calls]
    exact ⟨le_refl _, Or.inl (by omega)⟩
  · intro k hk
    apply nocall
    omega
  · intro i j hij hri hrj
    obtain ⟨a1, a2⟩ := (refr i).1 hri
    obtain ⟨b1, b2⟩ := (refr j).1 hrj
    have hdiff : ((d * (nX * nY) : Nat) : Int) ∣ (j : Int) - (i : Int) := by
      have := Int.dvd_sub b2 a2
      have e : r.frameCounter + (j : Int) - (r.frameCounter + (i : Int))
          = (j : Int) - (i : Int) := by ring
      rwa [e] at this
    have hle : ((d * (nX * nY) : Nat) : Int) ≤ (j : Int) - (i : Int) :=
      Int.le_of_dvd (by omega) hdiff
    have hle2 : d * (nX * nY) + i ≤ j := by omega
    have hprev : denoiserRefreshAfter err r (j - d * (nX * nY)) = true := by
      rw [refr]
      refine ⟨by omega, ?_⟩
      have : r.frameCounter + ((j - d * (nX * nY) : Nat) : Int)
          = (r.frameCounter + (j : Int)) - ((d * (nX * nY) : Nat) : Int) := by
        rw [Nat.cast_sub (by omega)]; ring
      rw [this]
      exact Int.dvd_sub b2 (Int.dvd_refl _)
    obtain ⟨-, g2⟩ := forward _ hprev
    refine ⟨by omega, ?_, ?_⟩
    · have := (refr _).1 hprev
      rw [calls]
      exact ⟨by omega, Or.inr this.2⟩
    · intro l hl1 hl2
      exact g2 l hl1 (by omega)


/-- C7 at a concrete input: the 2x2 grid of the 500x500 scene with the denoiser enabled and
cadence 1.  The gate law is read at the state after five ticks, the first call is in tick
`2 * 2 + 2`, and the re-invocation of tick 8 is followed by the one of tick 12. -/
theorem denoise_gate_and_cadence_witness :
    (Effect.denoiserExecute ∈ (Update false (run false 5 (scenarioInit 500 (-1) true))).2
        ↔ (run false 5 (scenarioInit 500 (-1) true)).scene.renderOptions.enableDenoiser = true
          ∧ 1 < (run false 5 (scenarioInit 500 (-1) true)).sampleCounter
          ∧ ((run false 5 (scenarioInit 500 (-1) true)).denoised = false
            ∨ Int.tmod (run false 5 (scenarioInit 500 (-1) true)).frameCounter
                ((run false 5 (scenarioInit 500 (-1) true)).scene.renderOptions.denoiserFrameCnt
                  * ((run false 5 (scenarioInit 500 (-1) true)).numTiles.x
                    * (run false 5 (scenarioInit 500 (-1) true)).numTiles.y)) = 0))
      ∧ denoiserCalledAfter false (scenarioInit 500 (-1) true) (2 * 2 + 1) = true
      ∧ denoiserRefreshAfter false (scenarioInit 500 (-1) true) (7 + 1 * (2 * 2)) = true :=
  ⟨((denoise_gate_and_cadence false 2 2 1 (by decide) (by decide) (by decide)
      (scenarioInit 500 (-1) true) (by decide) (by decide) (by decide) (by decide)
      (by decide) (by decide) (by decide) (by decide)).1
        (run false 5 (scenarioInit 500 (-1) true)) (by decide) (by decide)).1,
   (denoise_gate_and_cadence false 2 2 1 (by decide) (by decide) (by decide)
      (scenarioInit 500 (-1) true) (by decide) (by decide) (by decide) (by decide)
      (by decide) (by decide) (by decide) (by decide)).2.1,
   ((denoise_gate_and_cadence false 2 2 1 (by decide) (by decide) (by decide)
      (scenarioInit 500 (-1) true) (by decide) (by decide) (by decide) (by decide)
      (by decide) (by decide) (by decide) (by decide)).2.2.2.1 7 (by decide)).1⟩


/-! ## C2: double-buffer safety -/

theorem Render_dirty (r : TiledRenderer) (hi : r.initialized = true)
    (hd : r.scene.dirty = true) :
    Render r = ({ r with scene := { r.scene with instancesModified := false, dirty := false } },
      [Effect.previewPass]) := by
  have hc : converged r = false := by simp [converged, hd]
  simp [Render, hi, hc, hd]

theorem tick_dirty (err : Bool) (r : TiledRenderer) (hi : r.initialized = true)
    (hd : r.scene.dirty = true) :
    (tick err r).1 = { r with
        scene := { r.scene with instancesModified := false, dirty := false }
        tile := ⟨-1, r.numTiles.y - 1⟩
        sampleCounter := 1
        denoised := false
        frameCounter := 1
        accumTexture := [] } := by
  have hu := (Update_of_dirty err r hd).1
  have hr := Render_dirty (Update err r).1 (by rw [hu]; exact hi) (by rw [hu]; exact hd)
  simp only [tick]
  rw [hr]
  simp only
  rw [hu]

theorem Update_no_tonemap (err : Bool) (r : TiledRenderer) (i : Int) :
    Effect.tonemapPass i ∉ (Update err r).2 := by
  unfold Update
  split_ifs
  · simp
  · simp only [List.mem_append, advanceStep_effects, uniformStep, not_or]
    refine ⟨⟨⟨by simp, ?_⟩, by split_ifs <;> simp⟩, by simp⟩
    unfold denoiseStep
    split_ifs <;> simp

theorem tick_tonemap (err : Bool) (r : TiledRenderer) (i : Int)
    (h : Effect.tonemapPass i ∈ (tick err r).2) : i = (tick err r).1.currentBuffer := by
  simp only [tick, List.mem_append] at h ⊢
  rcases h with h | h
  · exact absurd h (Update_no_tonemap err r i)
  · rw [(Render_frame (Update err r).1).2.2.2.2.1]
    revert h
    unfold Render
    split_ifs <;> simp

theorem DoubleBufferInv_tick (err : Bool) (nX nY : Nat) (hX : 0 < nX) (hY : 0 < nY)
    (r : TiledRenderer) (h : DoubleBufferInv nX nY r) :
    DoubleBufferInv nX nY (tick err r).1
      ∧ (tick err r).1.scene.renderOptions = r.scene.renderOptions
      ∧ (tick err r).1.scene.dirty = false := by
  obtain ⟨hi, hn, hcb, hcur, q, m, hsc, hacc, hm, hq, hmm⟩ := h
  have hT : 0 < nX * nY := Nat.mul_pos hX hY
  cases hd : r.scene.dirty
  · -- clean tick
    by_cases hc : converged r = true
    · rw [(tick_of_converged err r hc).1]
      exact ⟨⟨hi, hn, hcb, hcur, q, m, hsc, hacc, hm, hq, hmm⟩, rfl, hd⟩
    · have hc2 : converged r = false := by simpa using hc
      have hm' : (m : Int) = cursorIndex r + 1 := by
        rcases hm with hm | ⟨-, h1, h2⟩
        · exact hm
        · exact absurd ((converged_iff r).2 ⟨hd, h1, h2⟩) hc
      obtain ⟨t1, t2, t3, -, -, -, -, -⟩ := tick_clean err r hi hd hc2
      obtain ⟨c1, c2, c3⟩ := tick_clean_cursor err r nX nY hX hi hd hc2 hn hcur
      obtain ⟨w1, w2⟩ := tick_clean_render err r hi hd hc2
      have hn'' : (tick err r).1.numTiles = ⟨(nX : Int), (nY : Int)⟩ := by rw [t3]; exact hn
      refine ⟨?_, by rw [t1], by rw [t1]; exact hd⟩
      rcases c3 with ⟨d1, d2, d3, d4⟩ | ⟨d1, d2, d3, d4⟩
      · -- inside a pass
        have hc' : converged (tick err r).1 = false := by
          rw [← hc2]
          simp only [converged, t1, d3]
        obtain ⟨v1, v2, v3, v4, -⟩ := w2 hc'
        have hg := gridCells_cursor (tick err r).1 nX nY hn'' c1 c2 m (by rw [d2]; exact hm')
        have htake : (gridCells nX nY).take (m + 1)
            = (gridCells nX nY).take m ++ [(tick err r).1.tile] := by
          rw [List.take_succ, hg]; rfl
        refine ⟨t2, hn'', by rw [d4]; exact hcb, c1, q, m + 1, by rw [d3, hsc], ?_,
          Or.inl (by rw [d2]; push_cast; omega), ?_, ?_⟩
        · rw [v1, hacc, htake, List.append_assoc]
        · intro hq0
          rw [← hq hq0, d4]
          rw [d4] at v3 v4
          rcases hcb with h0 | h1
          · have e : (1 : Int) - r.currentBuffer = 1 := by omega
            rw [e]
            simp only [outputTexture]
            rw [if_neg (by decide), if_neg (by decide)]
            exact v3 h0
          · have e : (1 : Int) - r.currentBuffer = 0 := by omega
            rw [e]
            simp only [outputTexture, if_true]
            exact v4 (by omega)
        · intro _
          rw [v2, v1]
      · -- the pass is complete
        have hmT : m = nX * nY := by
          have : (m : Int) = ((nX * nY : Nat) : Int) := by push_cast; omega
          exact_mod_cast this
        have htakeT : (gridCells nX nY).take m = gridCells nX nY := by
          rw [hmT, ← gridCells_length nX nY, List.take_length]
        have hfull : r.accumTexture = fullPasses (gridCells nX nY) (q + 1) := by
          rw [hacc, htakeT]; rfl
        have hhalf : outputTexture r r.currentBuffer = fullPasses (gridCells nX nY) (q + 1) := by
          rw [hmm (by omega), hfull]
        have hcb' : (tick err r).1.currentBuffer = 0 ∨ (tick err r).1.currentBuffer = 1 := by
          rw [d4]; omega
        have hback : (1 : Int) - (tick err r).1.currentBuffer = r.currentBuffer := by
          rw [d4]; ring
        by_cases hc' : converged (tick err r).1 = true
        · obtain ⟨v1, v2, v3, -⟩ := w1 hc'
          have hout : ∀ i, outputTexture (tick err r).1 i = outputTexture r i := by
            intro i
            simp only [outputTexture, v2, v3]
          refine ⟨t2, hn'', hcb', c1, q + 1, 0, by rw [d3, hsc]; push_cast; ring, ?_,
            Or.inr ⟨rfl, ?_⟩, ?_, fun h0 => absurd h0 (Nat.lt_irrefl 0)⟩
          · rw [v1, hfull]; simp
          · have := (converged_iff _).1 hc'
            exact ⟨this.2.1, this.2.2⟩
          · intro _
            rw [hback, hout, hhalf]
        · have hc'' : converged (tick err r).1 = false := by simpa using hc'
          obtain ⟨v1, v2, v3, v4, -⟩ := w2 hc''
          have hg := gridCells_cursor (tick err r).1 nX nY hn'' c1 c2 0 (by rw [d2]; rfl)
          have htake1 : (gridCells nX nY).take 1 = [(tick err r).1.tile] := by
            rw [List.take_succ, hg]; rfl
          refine ⟨t2, hn'', hcb', c1, q + 1, 1, by rw [d3, hsc]; push_cast; ring, ?_,
            Or.inl (by rw [d2]; rfl), ?_, ?_⟩
          · rw [v1, hfull, htake1]
          · intro _
            rw [hback, ← hhalf]
            rcases hcb with h0 | h1
            · have e : (tick err r).1.currentBuffer ≠ 0 := by rw [d4, h0]; decide
              rw [h0]
              simp only [outputTexture, if_true]
              exact v4 e
            · have e : (tick err r).1.currentBuffer = 0 := by rw [d4, h1]; rfl
              rw [h1]
              simp only [outputTexture]
              rw [if_neg (by decide), if_neg (by decide)]
              exact v3 e
          · intro _
            rw [v2, v1]
  · -- dirty tick: hard reset and preview
    rw [tick_dirty err r hi hd]
    refine ⟨⟨hi, hn, hcb, ?_, 0, 0, rfl, by simp [fullPasses], Or.inl ?_,
      fun h0 => absurd h0 (Nat.lt_irrefl 0), fun h0 => absurd h0 (Nat.lt_irrefl 0)⟩, rfl, rfl⟩
    · simp only [CursorOk, hn]
      omega
    · simp only [cursorIndex, hn]
      push_cast
      ring


theorem ceilDiv_pos (a b : Int) (ha : 0 < a) (hb : 0 < b) : 0 < ceilDiv a b := by
  unfold ceilDiv
  have := Int.ediv_neg' (by omega : -a < 0) hb
  omega

theorem DoubleBufferInv_step (err d : Bool) (nX nY : Nat) (hX : 0 < nX) (hY : 0 < nY)
    (r : TiledRenderer) (h : DoubleBufferInv nX nY r) :
    DoubleBufferInv nX nY (step err d r).1 ∧ (step err d r).1.scene.dirty = false := by
  unfold step
  cases d
  · exact ⟨(DoubleBufferInv_tick err nX nY hX hY r h).1,
      (DoubleBufferInv_tick err nX nY hX hY r h).2.2⟩
  · have h' : DoubleBufferInv nX nY (markDirty r) := h
    exact ⟨(DoubleBufferInv_tick err nX nY hX hY _ h').1,
      (DoubleBufferInv_tick err nX nY hX hY _ h').2.2⟩

theorem DoubleBufferInv_runSignals (err : Bool) (nX nY : Nat) (hX : 0 < nX) (hY : 0 < nY)
    (ds : List Bool) (r : TiledRenderer) (h : DoubleBufferInv nX nY r) :
    DoubleBufferInv nX nY (runSignals err ds r) := by
  induction ds generalizing r with
  | nil => exact h
  | cons d ds ih => exact ih _ (DoubleBufferInv_step err d nX nY hX hY r h).1

theorem DoubleBufferInv_Init (scene : Scene) (renderSize windowSize : IVec2) (fc : Int)
    (h1 : 0 < renderSize.x) (h2 : 0 < renderSize.y)
    (h3 : 0 < scene.renderOptions.tileWidth) (h4 : 0 < scene.renderOptions.tileHeight) :
    DoubleBufferInv (ceilDiv renderSize.x scene.renderOptions.tileWidth).toNat
      (ceilDiv renderSize.y scene.renderOptions.tileHeight).toNat
      (Init (construct scene renderSize windowSize fc)) := by
  have p1 := ceilDiv_pos _ _ h1 h3
  have p2 := ceilDiv_pos _ _ h2 h4
  have e1 : (((ceilDiv renderSize.x scene.renderOptions.tileWidth).toNat : Nat) : Int)
      = ceilDiv renderSize.x scene.renderOptions.tileWidth := Int.toNat_of_nonneg (le_of_lt p1)
  have e2 : (((ceilDiv renderSize.y scene.renderOptions.tileHeight).toNat : Nat) : Int)
      = ceilDiv renderSize.y scene.renderOptions.tileHeight := Int.toNat_of_nonneg (le_of_lt p2)
  refine ⟨rfl, ?_, Or.inl rfl, ?_, 0, 0, rfl, rfl, Or.inl ?_,
    fun h0 => absurd h0 (Nat.lt_irrefl 0), fun h0 => absurd h0 (Nat.lt_irrefl 0)⟩
  · rw [e1, e2]; rfl
  · simp only [CursorOk, Init, construct, baseInit]
    simp only [Bool.false_eq_true, if_false]
    omega
  · simp only [cursorIndex, Init, construct, baseInit]
    simp only [Bool.false_eq_true, if_false]
    push_cast
    ring

theorem mem_fullPasses (g : List IVec2) (q : Nat) (hq : 0 < q) (c : IVec2) (hc : c ∈ g) :
    c ∈ fullPasses g q := by
  cases q with
  | zero => omega
  | succ q => simp [fullPasses, hc]

/-- C2. Take any state reached from `Init` (positive render extent and tile size) by
ticks, the dirty flag being set or not before each of them, and one more tick.  If after
that tick (the dirty flag possibly set again, `d2`) presentation selects a half `h` of the
presentation store, then the scene is not dirty, `sampleCounter != 1`, `h` is
`1 - currentBuffer`, which differs from `currentBuffer`, the only half the `Render` of that
tick writes; and the half `h` was last derived from an accumulation that held `q >= 1`
complete passes over the grid since it was last cleared: it contains every tile of the
grid and it is the first part of the present accumulation.  In the state right after
`Init` no half is selected. -/
theorem double_buffer_safety (err : Bool) (scene : Scene) (renderSize windowSize : IVec2)
    (fc : Int) (h1 : 0 < renderSize.x) (h2 : 0 < renderSize.y)
    (h3 : 0 < scene.renderOptions.tileWidth) (h4 : 0 < scene.renderOptions.tileHeight)
    (ds : List Bool) (d d2 : Bool) (h : Int)
    (hp : presentSelection
        (if d2 then markDirty (step err d (stateAfter err scene renderSize windowSize fc ds)).1
         else (step err d (stateAfter err scene renderSize windowSize fc ds)).1)
      = some (Image.outputHalf h)) :
    (step err d (stateAfter err scene renderSize windowSize fc ds)).1.scene.dirty = false
      ∧ d2 = false
      ∧ (step err d (stateAfter err scene renderSize windowSize fc ds)).1.sampleCounter ≠ 1
      ∧ h = 1 - (step err d (stateAfter err scene renderSize windowSize fc ds)).1.currentBuffer
      ∧ h ≠ (step err d (stateAfter err scene renderSize windowSize fc ds)).1.currentBuffer
      ∧ Effect.tonemapPass h ∉ (step err d (stateAfter err scene renderSize windowSize fc ds)).2
      ∧ (∀ i : Int,
          Effect.tonemapPass i ∈ (step err d (stateAfter err scene renderSize windowSize fc ds)).2
          → i = (step err d (stateAfter err scene renderSize windowSize fc ds)).1.currentBuffer)
      ∧ (∃ q : Nat, 0 < q
          ∧ (step err d (stateAfter err scene renderSize windowSize fc ds)).1.sampleCounter
              = 1 + (q : Int)
          ∧ outputTexture (step err d (stateAfter err scene renderSize windowSize fc ds)).1 h
              = fullPasses (gridCells (ceilDiv renderSize.x scene.renderOptions.tileWidth).toNat
                  (ceilDiv renderSize.y scene.renderOptions.tileHeight).toNat) q)
      ∧ (∀ c : IVec2, (0 ≤ c.x ∧ c.x < ceilDiv renderSize.x scene.renderOptions.tileWidth)
            ∧ (0 ≤ c.y ∧ c.y < ceilDiv renderSize.y scene.renderOptions.tileHeight) →
          c ∈ outputTexture (step err d (stateAfter err scene renderSize windowSize fc ds)).1 h)
      ∧ outputTexture (step err d (stateAfter err scene renderSize windowSize fc ds)).1 h
          <+: (step err d (stateAfter err scene renderSize windowSize fc ds)).1.accumTexture
      ∧ (∀ i : Int, presentSelection (stateAfter err scene renderSize windowSize fc [])
          ≠ some (Image.outputHalf i)) := by
  have p1 := ceilDiv_pos _ _ h1 h3
  have p2 := ceilDiv_pos _ _ h2 h4
  have hX : 0 < (ceilDiv renderSize.x scene.renderOptions.tileWidth).toNat := by omega
  have hY : 0 < (ceilDiv renderSize.y scene.renderOptions.tileHeight).toNat := by omega
  have hinv0 := DoubleBufferInv_Init scene renderSize windowSize fc h1 h2 h3 h4
  have hinv1 := DoubleBufferInv_runSignals err _ _ hX hY ds _ hinv0
  obtain ⟨hinv, hdirty⟩ := DoubleBufferInv_step err d _ _ hX hY _ hinv1
  have htm : ∀ i : Int,
      Effect.tonemapPass i ∈ (step err d (stateAfter err scene renderSize windowSize fc ds)).2
      → i = (step err d (stateAfter err scene renderSize windowSize fc ds)).1.currentBuffer :=
    fun i => tick_tonemap err _ i
  unfold stateAfter at hp htm ⊢
  generalize (step err d (runSignals err ds (Init (construct scene renderSize windowSize fc))))
    = st at hp hinv hdirty htm ⊢
  obtain ⟨hi, hn, hcb, hcur, q, m, hsc, hacc, hm, hq, hmm⟩ := hinv
  have hd2 : d2 = false := by
    cases d2
    · rfl
    · simp [presentSelection, markDirty, hi] at hp
  subst hd2
  simp only [Bool.false_eq_true, if_false] at hp
  have hsel : st.1.sampleCounter ≠ 1 ∧ h = 1 - st.1.currentBuffer := by
    unfold presentSelection at hp
    simp only [hi, hdirty, Bool.not_true, Bool.false_eq_true, if_false, Bool.false_or] at hp
    split_ifs at hp with a1 a2
    · simp at hp
    · simp at hp
    · simp only [Option.some.injEq, Image.outputHalf.injEq] at hp
      exact ⟨by simpa using a1, hp.symm⟩
  obtain ⟨hs1, hh⟩ := hsel
  have hq0 : 0 < q := by
    rcases Nat.eq_zero_or_pos q with h0 | h0
    · exfalso; apply hs1; rw [hsc, h0]; rfl
    · exact h0
  have hne : h ≠ st.1.currentBuffer := by omega
  have hout : outputTexture st.1 h
      = fullPasses (gridCells (ceilDiv renderSize.x scene.renderOptions.tileWidth).toNat
          (ceilDiv renderSize.y scene.renderOptions.tileHeight).toNat) q := by
    rw [hh]; exact hq hq0
  refine ⟨hdirty, rfl, hs1, hh, hne, fun hcon => hne (htm h hcon), htm, ⟨q, hq0, hsc, hout⟩,
    ?_, ?_, ?_⟩
  · intro c hc
    rw [hout]
    apply mem_fullPasses _ _ hq0
    rw [mem_gridCells]
    rw [Int.toNat_of_nonneg (le_of_lt p1), Int.toNat_of_nonneg (le_of_lt p2)]
    exact hc
  · rw [hout, hacc]
    exact List.prefix_append _ _
  · intro i
    simp [runSignals, presentSelection, Init, construct, baseInit]


/-- C2 at a concrete input: the 500x500 scene with 250x250 tiles, four clean ticks and a
fifth one; presentation then selects half 0 while `Render` derives half 1. -/
theorem double_buffer_safety_witness :
    (0 : Int) = 1 - (step false false
        (stateAfter false (scenarioScene (-1) false) ⟨500, 500⟩ ⟨500, 500⟩ 0
          [false, false, false, false])).1.currentBuffer
      ∧ Effect.tonemapPass 0 ∉ (step false false
        (stateAfter false (scenarioScene (-1) false) ⟨500, 500⟩ ⟨500, 500⟩ 0
          [false, false, false, false])).2 :=
  ⟨(double_buffer_safety false (scenarioScene (-1) false) ⟨500, 500⟩ ⟨500, 500⟩ 0
      (by decide) (by decide) (by decide) (by decide) [false, false, false, false]
      false false 0 (by decide)).2.2.2.1,
   (double_buffer_safety false (scenarioScene (-1) false) ⟨500, 500⟩ ⟨500, 500⟩ 0
      (by decide) (by decide) (by decide) (by decide) [false, false, false, false]
      false false 0 (by decide)).2.2.2.2.2.1⟩


/-! ## C13: the tile grid -/

theorem ceilDiv_bounds (a b : Int) (hb : 0 < b) :
    a ≤ ceilDiv a b * b ∧ (ceilDiv a b - 1) * b < a := by
  unfold ceilDiv
  have h1 := Int.ediv_mul_le (-a) (ne_of_gt hb)
  have h2 := Int.lt_ediv_add_one_mul_self (-a) hb
  constructor
  · have : -(-a / b) * b = -((-a / b) * b) := by ring
    omega
  · have e1 : (-(-a / b) - 1) * b = -((-a / b + 1) * b) := by ring
    omega

theorem ceilDiv_eq_ceil (a b : Int) (hb : 0 < b) :
    ceilDiv a b = Int.ceil ((a : ℚ) / (b : ℚ)) := by
  obtain ⟨h1, h2⟩ := ceilDiv_bounds a b hb
  have hbq : (0 : ℚ) < (b : ℚ) := by exact_mod_cast hb
  symm
  rw [Int.ceil_eq_iff]
  constructor
  · rw [lt_div_iff₀ hbq]
    have : (((ceilDiv a b - 1) * b : Int) : ℚ) < ((a : Int) : ℚ) := by exact_mod_cast h2
    push_cast at this
    exact this
  · rw [div_le_iff₀ hbq]
    have : ((a : Int) : ℚ) ≤ ((ceilDiv a b * b : Int) : ℚ) := by exact_mod_cast h1
    push_cast at this
    exact this

theorem Init_numTiles (scene : Scene) (renderSize windowSize : IVec2) (fc : Int) :
    (Init (construct scene renderSize windowSize fc)).numTiles
      = ⟨ceilDiv renderSize.x scene.renderOptions.tileWidth,
         ceilDiv renderSize.y scene.renderOptions.tileHeight⟩ := by
  simp [Init, construct, baseInit]

/-- C13. For positive `renderWidth`, `renderHeight`, `tileWidth`, `tileHeight` (the float
quotient of `Init` taken as exact), `Init` sets `numTiles.x = ceil(renderWidth / tileWidth)`
and `numTiles.y = ceil(renderHeight / tileHeight)`; hence in each axis
`numTiles * tileSize >= renderSize` and `(numTiles - 1) * tileSize < renderSize`, so the
tiles cover the render target and the viewport origin `tileSize * t` of every tile `t` of
the grid lies inside it; and when the tile is larger than the render extent in both axes
the grid is exactly 1x1. -/
theorem tile_grid_by_ceiling_division (scene : Scene) (renderSize windowSize : IVec2)
    (fc : Int) (h1 : 0 < renderSize.x) (h2 : 0 < renderSize.y)
    (h3 : 0 < scene.renderOptions.tileWidth) (h4 : 0 < scene.renderOptions.tileHeight) :
    (Init (construct scene renderSize windowSize fc)).numTiles.x
        = Int.ceil ((renderSize.x : ℚ) / (scene.renderOptions.tileWidth : ℚ))
      ∧ (Init (construct scene renderSize windowSize fc)).numTiles.y
        = Int.ceil ((renderSize.y : ℚ) / (scene.renderOptions.tileHeight : ℚ))
      ∧ renderSize.x ≤ (Init (construct scene renderSize windowSize fc)).numTiles.x
          * scene.renderOptions.tileWidth
      ∧ ((Init (construct scene renderSize windowSize fc)).numTiles.x - 1)
          * scene.renderOptions.tileWidth < renderSize.x
      ∧ renderSize.y ≤ (Init (construct scene renderSize windowSize fc)).numTiles.y
          * scene.renderOptions.tileHeight
      ∧ ((Init (construct scene renderSize windowSize fc)).numTiles.y - 1)
          * scene.renderOptions.tileHeight < renderSize.y
      ∧ (∀ t : IVec2,
          (0 ≤ t.x ∧ t.x < (Init (construct scene renderSize windowSize fc)).numTiles.x) →
          (0 ≤ t.y ∧ t.y < (Init (construct scene renderSize windowSize fc)).numTiles.y) →
          (0 ≤ scene.renderOptions.tileWidth * t.x
            ∧ scene.renderOptions.tileWidth * t.x < renderSize.x)
          ∧ (0 ≤ scene.renderOptions.tileHeight * t.y
            ∧ scene.renderOptions.tileHeight * t.y < renderSize.y))
      ∧ (renderSize.x < scene.renderOptions.tileWidth →
          renderSize.y < scene.renderOptions.tileHeight →
          (Init (construct scene renderSize windowSize fc)).numTiles = ⟨1, 1⟩) := by
  rw [Init_numTiles]
  obtain ⟨a1, a2⟩ := ceilDiv_bounds renderSize.x scene.renderOptions.tileWidth h3
  obtain ⟨b1, b2⟩ := ceilDiv_bounds renderSize.y scene.renderOptions.tileHeight h4
  refine ⟨ceilDiv_eq_ceil _ _ h3, ceilDiv_eq_ceil _ _ h4, a1, a2, b1, b2, ?_, ?_⟩
  · rintro t ⟨tx0, tx1⟩ ⟨ty0, ty1⟩
    simp only at tx1 ty1
    have hx : scene.renderOptions.tileWidth * t.x
        ≤ (ceilDiv renderSize.x scene.renderOptions.tileWidth - 1)
          * scene.renderOptions.tileWidth := by
      rw [mul_comm]
      exact mul_le_mul_of_nonneg_right (by omega) (le_of_lt h3)
    have hy : scene.renderOptions.tileHeight * t.y
        ≤ (ceilDiv renderSize.y scene.renderOptions.tileHeight - 1)
          * scene.renderOptions.tileHeight := by
      rw [mul_comm]
      exact mul_le_mul_of_nonneg_right (by omega) (le_of_lt h4)
    exact ⟨⟨mul_nonneg (le_of_lt h3) tx0, by omega⟩, ⟨mul_nonneg (le_of_lt h4) ty0, by omega⟩⟩
  · intro hx hy
    have px := ceilDiv_pos _ _ h1 h3
    have py := ceilDiv_pos _ _ h2 h4
    have ex : ceilDiv renderSize.x scene.renderOptions.tileWidth = 1 := by
      by_contra hne
      have : (1 : Int) * scene.renderOptions.tileWidth
          ≤ (ceilDiv renderSize.x scene.renderOptions.tileWidth - 1)
            * scene.renderOptions.tileWidth :=
        mul_le_mul_of_nonneg_right (by omega) (le_of_lt h3)
      omega
    have ey : ceilDiv renderSize.y scene.renderOptions.tileHeight = 1 := by
      by_contra hne
      have : (1 : Int) * scene.renderOptions.tileHeight
          ≤ (ceilDiv renderSize.y scene.renderOptions.tileHeight - 1)
            * scene.renderOptions.tileHeight :=
        mul_le_mul_of_nonneg_right (by omega) (le_of_lt h4)
      omega
    rw [ex, ey]

/-- C13 at a concrete input: a 640x360 render target with 250x250 tiles gives a 3x2 grid,
and a 100x100 target gives the 1x1 grid. -/
theorem tile_grid_by_ceiling_division_witness :
    (640 : Int) ≤ (Init (construct (scenarioScene (-1) false) ⟨640, 360⟩ ⟨640, 360⟩ 0)).numTiles.x
        * 250
      ∧ (Init (construct (scenarioScene (-1) false) ⟨100, 100⟩ ⟨100, 100⟩ 0)).numTiles
        = ⟨1, 1⟩ :=
  ⟨(tile_grid_by_ceiling_division (scenarioScene (-1) false) ⟨640, 360⟩ ⟨640, 360⟩ 0
      (by decide) (by decide) (by decide) (by decide)).2.2.1,
   (tile_grid_by_ceiling_division (scenarioScene (-1) false) ⟨100, 100⟩ ⟨100, 100⟩ 0
      (by decide) (by decide) (by decide) (by decide)).2.2.2.2.2.2.2 (by decide) (by decide)⟩


/-! ## C11: the image read back for export -/

/-- C11, counterexample. Right after `Init` (initialized, scene not dirty,
`sampleCounter = 1`) `Present` selects the low-resolution preview, while `GetOutputBuffer`
reads back the presentation-store half `1 - currentBuffer = 1`. -/
theorem export_differs_from_present_in_preview :
    (scenarioInit 500 (-1) false).sampleCounter = 1
      ∧ presentSelection (scenarioInit 500 (-1) false) = some Image.lowRes
      ∧ GetOutputBuffer (scenarioInit 500 (-1) false) = Image.outputHalf 1 := by
  decide

/-- C11, amended. `GetOutputBuffer` never reads the preview: in every state it reads the
denoised image when `enableDenoiser` and `denoised`, otherwise the presentation-store half
`1 - currentBuffer`, whatever the dirty flag and `sampleCounter` are.  In an initialized
state it is the image `Present` selects exactly when `Present` does not select the preview,
that is when the scene is not dirty and `sampleCounter != 1`. -/
theorem export_selection_rule (r : TiledRenderer) :
    GetOutputBuffer r ≠ Image.lowRes
      ∧ (r.scene.renderOptions.enableDenoiser = true ∧ r.denoised = true →
          GetOutputBuffer r = Image.denoisedImage)
      ∧ (¬ (r.scene.renderOptions.enableDenoiser = true ∧ r.denoised = true) →
          GetOutputBuffer r = Image.outputHalf (1 - r.currentBuffer))
      ∧ GetOutputBuffer (markDirty r) = GetOutputBuffer r
      ∧ (r.initialized = true →
          (presentSelection r = some (GetOutputBuffer r)
            ↔ r.scene.dirty = false ∧ r.sampleCounter ≠ 1))
      ∧ (r.initialized = true → (r.scene.dirty = true ∨ r.sampleCounter = 1) →
          presentSelection r = some Image.lowRes) := by
  have hne : GetOutputBuffer r ≠ Image.lowRes := by
    unfold GetOutputBuffer
    split_ifs <;> simp
  refine ⟨hne, ?_, ?_, rfl, ?_, ?_⟩
  · rintro ⟨h1, h2⟩
    simp [GetOutputBuffer, h1, h2]
  · intro h
    have : (r.scene.renderOptions.enableDenoiser && r.denoised) = false := by
      cases h1 : r.scene.renderOptions.enableDenoiser <;> cases h2 : r.denoised <;> simp_all
    simp [GetOutputBuffer, this]
  · intro hi
    by_cases hp : r.scene.dirty = true ∨ r.sampleCounter = 1
    · have hsel : presentSelection r = some Image.lowRes := by
        unfold presentSelection
        rcases hp with hp | hp <;> simp [hi, hp]
      rw [hsel]
      constructor
      · intro h
        exact absurd (Option.some.inj h).symm hne
      · rintro ⟨h1, h2⟩
        rcases hp with hp | hp
        · rw [h1] at hp; exact Bool.noConfusion hp
        · exact absurd hp h2
    · have hd : r.scene.dirty = false := by
        cases h : r.scene.dirty
        · rfl
        · exact absurd (Or.inl h) hp
      have hs : r.sampleCounter ≠ 1 := fun h => hp (Or.inr h)
      refine ⟨fun _ => ⟨hd, hs⟩, fun _ => ?_⟩
      unfold presentSelection GetOutputBuffer
      simp only [hi, hd, Bool.not_true, Bool.false_eq_true, if_false, Bool.false_or]
      have hs' : (r.sampleCounter == 1) = false := by simpa using hs
      rw [hs']
      simp only [Bool.false_eq_true, if_false]
      split_ifs <;> rfl
  · intro hi hp
    unfold presentSelection
    rcases hp with hp | hp <;> simp [hi, hp]

/-- C11 amended, at a concrete input: after `Init` and six clean ticks on the 2x2 grid
`Present` and `GetOutputBuffer` agree; right after `Init` `Present` shows the preview. -/
theorem export_selection_rule_witness :
    (presentSelection (run false 6 (scenarioInit 500 (-1) false))
        = some (GetOutputBuffer (run false 6 (scenarioInit 500 (-1) false)))
      ↔ (run false 6 (scenarioInit 500 (-1) false)).scene.dirty = false
        ∧ (run false 6 (scenarioInit 500 (-1) false)).sampleCounter ≠ 1)
      ∧ presentSelection (scenarioInit 500 (-1) false) = some Image.lowRes :=
  ⟨(export_selection_rule (run false 6 (scenarioInit 500 (-1) false))).2.2.2.2.1 (by decide),
   (export_selection_rule (scenarioInit 500 (-1) false)).2.2.2.2.2 (by decide)
     (Or.inr (by decide))⟩


/-! ## C12: the 1x1 grid -/

end GLSLPT
